import Mathlib

/-!
Verification of the Paribus hospital bulk-import batch service.

This file is a shallow embedding of `src/services/batch_service.py`,
`src/main.py` and `src/config.py`.  Python dicts with a fixed key set become
Lean structures; a dict key that may be absent becomes an `Option` field;
Python string statuses become an inductive type (the `request_error` status
string embeds the exception message, so the constructor carries it); the
remote HTTP dependency (`httpx`) is an oracle parameter giving, for each row
index, the outcome of the POST that row makes; `time.time()` readings are
explicit `Int` parameters.  A processing pass that raises an uncaught
exception (only possible when `resp.json()` fails on a 2xx create response)
kills the background task, so the pass functions return `Option`: `none`
models the crashed task.  Broadcasts are modelled as the ordered list of
messages the pass hands to `_broadcast_progress`, and the POST requests a
pass issues are collected in an audit list so that claims about what is
sent (and not sent) are statable.
-/

/-- One parsed CSV row as produced by `csv.DictReader` (`src/main.py`):
each relevant column is either present with a string value or absent.
A key present with value `None` behaves, after `(... or "").strip()`,
exactly like an absent key, so both are modelled as `none`. -/
structure RawRow where
  name : Option String
  address : Option String
  phone : Option String
deriving DecidableEq

/-- Python's `str.strip()`: drop leading and trailing whitespace.  Written
structurally over the character list so that concrete runs reduce. -/
def pyStrip (s : String) : String :=
  ⟨((s.data.dropWhile Char.isWhitespace).reverse.dropWhile Char.isWhitespace).reverse⟩

/-- `(row.get(k) or "").strip()` from `batch_service.py` lines 73-74. -/
def stripOr (s : Option String) : String := pyStrip (s.getD "")

/-- The retained per-row submission payload built at lines 77-79:
`{"name": name, "address": address}` plus `"phone"` only when the trimmed
phone is non-empty. -/
structure Payload where
  name : String
  address : String
  phone : Option String
deriving DecidableEq

/-- The body actually POSTed: `{**payload, "creation_batch_id": batch_id}`
(lines 89 and 153). -/
structure SendPayload where
  name : String
  address : String
  phone : Option String
  creation_batch_id : String
deriving DecidableEq

/-- Lines 73-79: normalize one raw row into the retained payload. -/
def payloadOfRow (row : RawRow) : Payload :=
  { name := stripOr row.name
    address := stripOr row.address
    phone :=
      match row.phone with
      | none => none
      | some p => if pyStrip p = "" then none else some (pyStrip p) }

/-- Inject the batch id at send time (lines 89 and 153). -/
def sendOf (p : Payload) (bid : String) : SendPayload :=
  { name := p.name, address := p.address, phone := p.phone,
    creation_batch_id := bid }

/-- Row outcome statuses.  In the source these are the strings
`"invalid_row_missing_name_or_address"`, `"request_error: <msg>"` (the
exception message is part of the status string), `"created"`,
`"create_failed"` and `"created_and_activated"`. -/
inductive RowStatus where
  | invalidRow
  | requestError (msg : String)
  | created
  | createFailed
  | createdAndActivated
deriving DecidableEq

/-- A parsed JSON response body; the code only ever reads `data.get("id")`,
the rest is kept opaque as `raw`. -/
structure RespJson where
  id : Option Nat
  raw : String
deriving DecidableEq

/-- The recorded `error` value: `resp.json()` when it parses, else the
fallback `{"status_code": ..., "text": ...}` (lines 110-113, 174-177). -/
inductive ErrBody where
  | parsed (j : RespJson)
  | statusText (code : Nat) (text : String)
deriving DecidableEq

/-- One stored row entry (the dicts built at lines 83, 95, 104, 114 and the
retry updates at 159, 168, 178).  `error := none` models the `error` key
being absent from the dict; only `create_failed` entries carry it. -/
structure Entry where
  row : Nat
  hospitalId : Option Nat
  name : Option String
  status : RowStatus
  error : Option ErrBody
  payload : Option Payload
deriving DecidableEq

/-- Batch status strings `"processing"` / `"completed"`. -/
inductive BatchStatus where
  | processing
  | completed
deriving DecidableEq

/-- The per-batch progress record `self.batch_progress[batch_id]`
(lines 28-38 plus the keys added later). -/
structure BatchRec where
  batchId : String
  totalHospitals : Nat
  processedHospitals : Nat
  failedHospitals : Nat
  processingTimeSeconds : Option Int
  batchActivated : Bool
  hospitals : List Entry
  status : BatchStatus
  startedAt : Int
  finishedAt : Option Int
deriving DecidableEq

/-- Messages handed to `_broadcast_progress` / sent on the websocket. -/
inductive Event where
  | rowUpdate (e : Entry)
  | batchActivatedEv
  | completedEv (rec : BatchRec)
  | currentEv (rec : BatchRec)
deriving DecidableEq

/-- What one `client.post(.../hospitals/, json=...)` call comes back with:
a transport error (`httpx.RequestError`), or an HTTP response with a status
code, an optional parsed JSON body (`none` = `resp.json()` raises) and the
raw text. -/
inductive CreateOutcome where
  | netErr (msg : String)
  | resp (code : Nat) (json : Option RespJson) (text : String)

/-- Outcome of the activation PATCH (lines 123, 188): the call raised, or
returned a status code. -/
inductive ActResult where
  | exn
  | code (n : Nat)

/-- The in-memory store `self.batch_progress`, as an association list. -/
def Store := List (String × BatchRec)

/-- `self.batch_progress.get(batch_id)`. -/
def getB (st : Store) (bid : String) : Option BatchRec :=
  match st with
  | [] => none
  | (k, v) :: rest => if k = bid then some v else getB rest bid

/-- `self.batch_progress[batch_id] = rec` (replace or insert). -/
def setB (st : Store) (bid : String) (rec : BatchRec) : Store :=
  match st with
  | [] => [(bid, rec)]
  | (k, v) :: rest => if k = bid then (bid, rec) :: rest else (k, v) :: setB rest bid rec

/-- The initial record inserted by `start_batch` (lines 28-38). -/
def initialRec (bid : String) (total : Nat) (now : Int) : BatchRec :=
  { batchId := bid
    totalHospitals := total
    processedHospitals := 0
    failedHospitals := 0
    processingTimeSeconds := none
    batchActivated := false
    hospitals := []
    status := .processing
    startedAt := now
    finishedAt := none }

/-- `start_batch` (lines 27-40): insert the initial record; the first
processing pass itself is scheduled as a background task and modelled by
`process_batch` below. -/
def start_batch (bid : String) (rows : List RawRow) (now : Int) (st : Store) : Store :=
  setB st bid (initialRec bid rows.length now)

/-- `get_status` (lines 42-43). -/
def get_status (bid : String) (st : Store) : Option BatchRec := getB st bid

/-- Whether a first-pass row passes the validity check at line 81
(`not name or not address` negated). -/
def rowIsValid (row : RawRow) : Bool :=
  !(stripOr row.name == "") && !(stripOr row.address == "")

/-- The entry recorded for one first-pass row, lines 81-117.  `none` models
the uncaught exception when a 200/201 response body fails to parse as JSON
(line 103), which kills the pass.  Each branch is the literal dict built by
the source:
* invalid row (line 83),
* transport error (line 95),
* success (line 104),
* non-2xx (line 114). -/
def rowEntry (remote : Nat → CreateOutcome) (idx : Nat) (row : RawRow) : Option Entry :=
  let name := stripOr row.name
  let address := stripOr row.address
  let payload := payloadOfRow row
  if name = "" ∨ address = "" then
    some { row := idx, hospitalId := none,
           name := if name = "" then none else some name,
           status := .invalidRow, error := none, payload := some payload }
  else
    match remote idx with
    | .netErr msg =>
        some { row := idx, hospitalId := none, name := some name,
               status := .requestError msg, error := none, payload := some payload }
    | .resp code json text =>
        if code = 200 ∨ code = 201 then
          match json with
          | none => none
          | some j =>
              some { row := idx, hospitalId := j.id, name := some name,
                     status := .created, error := none, payload := some payload }
        else
          some { row := idx, hospitalId := none, name := some name,
                 status := .createFailed,
                 error := some (match json with
                   | some j => .parsed j
                   | none => .statusText code text),
                 payload := some payload }

/-- Accumulated state of one processing pass: the two local counters
(`processed`, `failed` of lines 68-69 / 146-147), the mutated batch record,
and the audit trail of broadcasts and POST requests issued so far. -/
structure LoopSt where
  processed : Nat
  failed : Nat
  record : BatchRec
  events : List Event
  calls : List SendPayload

/-- One iteration of the first-pass loop (lines 72-117).  The entry for the
row is `rowEntry`; exactly one counter is incremented and its stored mirror
(`processed_hospitals` / `failed_hospitals`) written, the entry is appended
to `hospitals`, and one `row_update` event is broadcast — the `created`
branch increments `processed`, every other branch increments `failed`
(including `invalid_row`, line 82).  A POST is issued exactly when the row
passes validation (line 92). -/
def stepRow (bid : String) (remote : Nat → CreateOutcome) (st : LoopSt)
    (ir : Nat × RawRow) : Option LoopSt :=
  match rowEntry remote ir.1 ir.2 with
  | none => none
  | some entry =>
      some
        { processed := st.processed + (if entry.status = .created then 1 else 0)
          failed := st.failed + (if entry.status = .created then 0 else 1)
          record :=
            { st.record with
              hospitals := st.record.hospitals ++ [entry]
              processedHospitals :=
                if entry.status = .created then st.processed + 1
                else st.record.processedHospitals
              failedHospitals :=
                if entry.status = .created then st.record.failedHospitals
                else st.failed + 1 }
          events := st.events ++ [.rowUpdate entry]
          calls := st.calls ++
            (if rowIsValid ir.2 then [sendOf (payloadOfRow ir.2) bid] else []) }

/-- The `for idx, row in enumerate(rows, start=1)` loop, sequentially. -/
def runRows (bid : String) (remote : Nat → CreateOutcome) :
    LoopSt → List (Nat × RawRow) → Option LoopSt
  | st, [] => some st
  | st, ir :: rest =>
      match stepRow bid remote st ir with
      | none => none
      | some st' => runRows bid remote st' rest

/-- The activation attempt (lines 121-131 and 186-196): PATCH the activate
endpoint; `batch_activated` is true iff the status code is 200 or 204; on
success every `created` entry is rewritten to `created_and_activated` and a
`batch_activated` event broadcast; any exception leaves it false. -/
def runActivation (act : ActResult) (rec : BatchRec) (events : List Event) :
    Bool × BatchRec × List Event :=
  match act with
  | .exn => (false, rec, events)
  | .code n =>
      if n = 200 ∨ n = 204 then
        (true,
         { rec with hospitals := rec.hospitals.map fun e =>
             if e.status = .created then { e with status := .createdAndActivated } else e },
         events ++ [.batchActivatedEv])
      else (false, rec, events)

/-- Lines 119-143: the conditional activation (the first pass gates it on
the local `failed` counter being zero, line 120) followed by the final
record update (`processing_time_seconds = int(finished - started)` from the
pass's own two clock readings, `status=completed`, `finished_at`) and the
terminal `completed` broadcast carrying the full record. -/
def finalizeFirst (act : ActResult) (started finished : Int) (st : LoopSt) :
    BatchRec × List Event × List SendPayload × Bool :=
  let callActivate : Bool := st.failed == 0
  let actOut := if callActivate then runActivation act st.record st.events
                else (false, st.record, st.events)
  let rec2 :=
    { actOut.2.1 with
      processingTimeSeconds := some (finished - started)
      batchActivated := actOut.1
      status := .completed
      finishedAt := some finished }
  (rec2, actOut.2.2 ++ [.completedEv rec2], st.calls, callActivate)

/-- `_process_batch` (lines 66-143) as a function of the record it mutates.
`started` and `finished` are the two `time.time()` readings at lines 67 and
133 (the pass's own clock, distinct from the `started_at` stored by
`start_batch`).  Returns the final record, the ordered broadcasts, the POST
bodies issued, and whether the activation PATCH was attempted (`failed == 0`
at line 120); `none` models the pass dying on an unparseable 2xx body. -/
def process_batch (bid : String) (rows : List RawRow) (remote : Nat → CreateOutcome)
    (act : ActResult) (started finished : Int) (rec0 : BatchRec) :
    Option (BatchRec × List Event × List SendPayload × Bool) :=
  match runRows bid remote
      { processed := 0, failed := 0, record := rec0, events := [], calls := [] }
      (List.enumFrom 1 rows) with
  | none => none
  | some st => some (finalizeFirst act started finished st)

/-- `{**e, **new_entry}` at line 211: every key of the update overwrites;
`error` is the only key an update may lack (it is present only on
`create_failed` updates), in which case the old value survives. -/
def mergeEntry (old new : Entry) : Entry :=
  { row := new.row, hospitalId := new.hospitalId, name := new.name,
    status := new.status, payload := new.payload,
    error := match new.error with | some e => some e | none => old.error }

/-- `_update_stored_entry` (lines 207-212): replace the first entry whose
`row` matches, merging the update over it; no match leaves the list as is. -/
def update_stored_entry (hospitals : List Entry) (rowIdx : Nat) (new : Entry) :
    List Entry :=
  match hospitals with
  | [] => []
  | e :: rest =>
      if e.row = rowIdx then mergeEntry e new :: rest
      else e :: update_stored_entry rest rowIdx new

/-- The update dict built for one retried entry, lines 155-178.  `payload`
is `entry.get("payload") or {}`; `resume_batch` only schedules entries whose
payload is present and `Payload` dicts are never empty, so the `or {}`
default is not reachable from the service's own flow — it is still passed
explicitly here (`p`) together with the `payload.get("name")` field
(`nameF`).  Branches mirror the first pass: transport error (line 159),
success (line 168, `resp.json()` may raise → `none`), non-2xx (line 178). -/
def rowEntryRetry (remote : Nat → CreateOutcome) (idx : Nat) (p : Payload)
    (nameF : Option String) : Option Entry :=
  match remote idx with
  | .netErr msg =>
      some { row := idx, hospitalId := none, name := nameF,
             status := .requestError msg, error := none, payload := some p }
  | .resp code json text =>
      if code = 200 ∨ code = 201 then
        match json with
        | none => none
        | some j =>
            some { row := idx, hospitalId := j.id, name := nameF,
                   status := .created, error := none, payload := some p }
      else
        some { row := idx, hospitalId := none, name := nameF,
               status := .createFailed,
               error := some (match json with
                 | some j => .parsed j
                 | none => .statusText code text),
               payload := some p }

/-- One iteration of the retry loop (lines 150-181): build the update for
the entry, merge it into the stored list by row index, increment exactly one
counter and write its stored mirror, broadcast one `row_update` carrying the
update dict.  Every retried entry issues a POST (line 156). -/
def stepRetry (bid : String) (remote : Nat → CreateOutcome) (st : LoopSt)
    (e : Entry) : Option LoopSt :=
  let p := e.payload.getD { name := "", address := "", phone := none }
  let nameF := e.payload.map (fun q => q.name)
  match rowEntryRetry remote e.row p nameF with
  | none => none
  | some upd =>
      some
        { processed := st.processed + (if upd.status = .created then 1 else 0)
          failed := st.failed + (if upd.status = .created then 0 else 1)
          record :=
            { st.record with
              hospitals := update_stored_entry st.record.hospitals e.row upd
              processedHospitals :=
                if upd.status = .created then st.processed + 1
                else st.record.processedHospitals
              failedHospitals :=
                if upd.status = .created then st.record.failedHospitals
                else st.failed + 1 }
          events := st.events ++ [.rowUpdate upd]
          calls := st.calls ++ [sendOf p bid] }

/-- The `for entry in entries` retry loop, sequentially. -/
def runRetryRows (bid : String) (remote : Nat → CreateOutcome) :
    LoopSt → List Entry → Option LoopSt
  | st, [] => some st
  | st, e :: rest =>
      match stepRetry bid remote st e with
      | none => none
      | some st' => runRetryRows bid remote st' rest

/-- The activation condition of the retry pass, line 183: the number of
stored entries whose status is neither `created` nor
`created_and_activated`. -/
def remainingFailures (hospitals : List Entry) : Nat :=
  (hospitals.filter fun e =>
    !(e.status == .created || e.status == .createdAndActivated)).length

/-- Lines 183-205: the retry pass recomputes the activation condition over
the entire stored entry list (line 183), attempts activation when no
failures remain, then writes `batch_activated` and `status=completed` —
and, unlike the first pass, neither `finished_at` nor
`processing_time_seconds` — and emits the terminal `completed` broadcast. -/
def finalizeRetry (act : ActResult) (st : LoopSt) :
    BatchRec × List Event × List SendPayload × Bool :=
  let callActivate : Bool := remainingFailures st.record.hospitals == 0
  let actOut := if callActivate then runActivation act st.record st.events
                else (false, st.record, st.events)
  let rec2 :=
    { actOut.2.1 with
      batchActivated := actOut.1
      status := .completed }
  (rec2, actOut.2.2 ++ [.completedEv rec2], st.calls, callActivate)

/-- `_process_batch_retry` (lines 145-205).  The local counters start from
the stored `processed_hospitals` / `failed_hospitals` (lines 146-147); a
successful retry increments `processed` but never decrements `failed`.  The
finalization (lines 198-203) writes `batch_activated` and `status` but — in
contrast to the first pass — touches neither `finished_at` nor
`processing_time_seconds`, and the pass never reads the clock at all.  The
`failed_hospitals` / `processed_hospitals` items of the final update read
the currently stored values back (`.get` with a default on keys that are
always present), so they change nothing. -/
def process_batch_retry (bid : String) (entries : List Entry)
    (remote : Nat → CreateOutcome) (act : ActResult) (rec0 : BatchRec) :
    Option (BatchRec × List Event × List SendPayload × Bool) :=
  match runRetryRows bid remote
      { processed := rec0.processedHospitals, failed := rec0.failedHospitals,
        record := rec0, events := [], calls := [] } entries with
  | none => none
  | some st => some (finalizeRetry act st)

/-- Failures `resume_batch` raises (lines 47-50): `KeyError` → 404 in
`main.py`, `RuntimeError` → 409. -/
inductive ResumeErr where
  | notFound
  | alreadyProcessing
deriving DecidableEq

/-- The two success responses of `resume_batch` (lines 59 and 63). -/
inductive ResumeResult where
  | nothingToRetry
  | retryScheduled (count : Nat)
deriving DecidableEq

/-- The selection predicate of lines 53-56: the entry's payload is present
(a `Payload` dict is never empty, so dict truthiness is `isSome`) and its
status is none of `created`, `created_and_activated`,
`invalid_row_missing_name_or_address`. -/
def retryEligible (e : Entry) : Bool :=
  e.payload.isSome &&
    !(e.status == .created || e.status == .createdAndActivated ||
      e.status == .invalidRow)

/-- `resume_batch` (lines 45-63).  Returns the response, the store after the
call, and the list of entries handed to the scheduled retry task (empty when
nothing was scheduled). -/
def resume_batch (bid : String) (st : Store) :
    Except ResumeErr (ResumeResult × Store × List Entry) :=
  match getB st bid with
  | none => .error .notFound
  | some rec =>
      if rec.status = .processing then .error .alreadyProcessing
      else
        let toRetry := rec.hospitals.filter retryEligible
        if toRetry.isEmpty then .ok (.nothingToRetry, st, [])
        else
          .ok (.retryScheduled toRetry.length,
               setB st bid { rec with status := .processing }, toRetry)

/-- `MAX_HOSPITALS` defaults to 20 (`src/config.py` lines 7-10). -/
def MAX_HOSPITALS_default : Nat := 20

/-- Rejections of the bulk entry point relevant to the decoded row list
(`src/main.py` lines 42-45): empty CSV, or more rows than the configured
maximum. -/
inductive BulkErr where
  | emptyCsv
  | tooManyRows
deriving DecidableEq

/-- The 202 body of the bulk entry point (line 48 of `main.py`). -/
structure BulkResp where
  batch_id : String
  total_hospitals : Nat
  status : String
deriving DecidableEq

/-- `bulk_create_hospitals` (`src/main.py` lines 35-48), from the decoded
row list on: the emptiness and row-count checks run before the batch id is
generated and before `start_batch` creates any state, so both error
branches return the store untouched and carry no id.  `freshId` stands for
the `uuid.uuid4()` drawn only on the success path. -/
def bulk_create_hospitals (maxHospitals : Nat) (rows : List RawRow)
    (freshId : String) (now : Int) (st : Store) :
    Except BulkErr BulkResp × Store :=
  if rows.length = 0 then (.error .emptyCsv, st)
  else if rows.length > maxHospitals then (.error .tooManyRows, st)
  else
    (.ok { batch_id := freshId, total_hospitals := rows.length,
           status := "started" },
     start_batch freshId rows now st)

/-- The subscriber map `self.batch_subscribers`, queues named by tokens. -/
def Subscribers := List (String × List Nat)

/-- Current queue list for a batch id (`.get(batch_id, [])`-like read). -/
def getSubs (subs : Subscribers) (bid : String) : List Nat :=
  match subs with
  | [] => []
  | (k, v) :: rest => if k = bid then v else getSubs rest bid

/-- Replace-or-insert for the subscriber map. -/
def setSubs (subs : Subscribers) (bid : String) (qs : List Nat) : Subscribers :=
  match subs with
  | [] => [(bid, qs)]
  | (k, v) :: rest =>
      if k = bid then (bid, qs) :: rest else (k, v) :: setSubs rest bid qs

/-- `subscribe` (lines 223-226): create a fresh queue and append it under
the batch id via `setdefault`; it never consults `batch_progress` and has no
failure path. -/
def subscribe (bid : String) (subs : Subscribers) (fresh : Nat) :
    Nat × Subscribers :=
  (fresh, setSubs subs bid (getSubs subs bid ++ [fresh]))

/-- The connection phase of `websocket_batch_progress` (`src/main.py` lines
146-154): accept, subscribe, then send the `current` snapshot only when
`get_status` finds a record.  Returns the queue handle, the new subscriber
map, and the optional initial message. -/
def websocket_batch_progress (bid : String) (st : Store) (subs : Subscribers)
    (fresh : Nat) : (Nat × Subscribers) × Option Event :=
  (subscribe bid subs fresh, (get_status bid st).map .currentEv)

/-- The entries a first pass records for an enumerated row list, in order;
`none` when some row kills the pass. -/
def rowEntries (remote : Nat → CreateOutcome) : List (Nat × RawRow) → Option (List Entry)
  | [] => some []
  | ir :: rest =>
      match rowEntry remote ir.1 ir.2 with
      | none => none
      | some e =>
          match rowEntries remote rest with
          | none => none
          | some es => some (e :: es)

/-- The update dicts a retry pass builds for its entry list, in order. -/
def retryUpds (remote : Nat → CreateOutcome) : List Entry → Option (List Entry)
  | [] => some []
  | e :: rest =>
      match rowEntryRetry remote e.row
          (e.payload.getD { name := "", address := "", phone := none })
          (e.payload.map fun q => q.name) with
      | none => none
      | some u =>
          match retryUpds remote rest with
          | none => none
          | some us => some (u :: us)

/-- Sequentially merge a list of retry updates into the stored list. -/
def applyUpds (hs : List Entry) : List Entry → List Entry
  | [] => hs
  | u :: us => applyUpds (update_stored_entry hs u.row u) us

/-- Number of stored entries with outcome `invalid_row`. -/
def invalidRowCount (hospitals : List Entry) : Nat :=
  (hospitals.filter fun e => e.status == .invalidRow).length

/-- The entry line 83 records for an invalid first-pass row. -/
def invalidEntryFor (idx : Nat) (row : RawRow) : Entry :=
  { row := idx, hospitalId := none,
    name := if stripOr row.name = "" then none else some (stripOr row.name),
    status := .invalidRow, error := none, payload := some (payloadOfRow row) }

/-- Recognize the terminal `completed` broadcast. -/
def isCompletedEv : Event → Bool
  | .completedEv _ => true
  | _ => false

/-- Project the entry out of a `row_update` broadcast. -/
def evRowData : Event → Option Entry
  | .rowUpdate e => some e
  | _ => none

/-- Remote oracle that answers every create with `201 {"id": 10}`. -/
def remoteAllOk : Nat → CreateOutcome :=
  fun _ => .resp 201 (some { id := some 10, raw := "ok" }) ""

/-- Remote oracle that raises a transport error on every create. -/
def remoteBoom : Nat → CreateOutcome := fun _ => .netErr "boom"

/-- Remote oracle that answers every create with a 500 and a JSON body. -/
def remoteServerErr : Nat → CreateOutcome :=
  fun _ => .resp 500 (some { id := none, raw := "detail" }) "server error"

def rowAlpha : RawRow := { name := some "Alpha", address := some "Addr1", phone := none }

def rowBeta : RawRow := { name := some "Beta", address := some "Addr2", phone := none }

/-- A row whose name strips to empty: fails validation. -/
def rowNoName : RawRow := { name := some " ", address := some "Addr", phone := none }

def outDefault : BatchRec × List Event × List SendPayload × Bool :=
  (initialRec "none" 0 0, [], [], false)

/-- First pass over two good rows, everything succeeds. -/
def firstOkOut : BatchRec × List Event × List SendPayload × Bool :=
  (process_batch "b1" [rowAlpha, rowBeta] remoteAllOk (.code 200) 0 5
    (initialRec "b1" 2 0)).getD outDefault

/-- First pass over one invalid row (activation endpoint would succeed). -/
def firstInvalidOut : BatchRec × List Event × List SendPayload × Bool :=
  (process_batch "b2" [rowNoName] remoteAllOk (.code 200) 0 5
    (initialRec "b2" 1 0)).getD outDefault

/-- First pass over one good row whose create raises a transport error. -/
def firstBoomOut : BatchRec × List Event × List SendPayload × Bool :=
  (process_batch "b3" [rowAlpha] remoteBoom (.code 200) 0 5
    (initialRec "b3" 1 0)).getD outDefault

/-- First pass whose task starts executing at t=5 on a record stamped
`started_at = 0`, finishing at t=100. -/
def firstLateOut : BatchRec × List Event × List SendPayload × Bool :=
  (process_batch "b4" [rowAlpha] remoteAllOk (.code 200) 5 100
    (initialRec "b4" 1 0)).getD outDefault

/-- A stored `create_failed` entry, as the first pass records it. -/
def entryFailed1 : Entry :=
  { row := 1, hospitalId := none, name := some "A", status := .createFailed,
    error := some (.statusText 500 "err"),
    payload := some { name := "A", address := "Ad", phone := none } }

/-- A completed batch record holding one failed row, as left by a first
pass that ran from t=0 to t=30, then flipped back to processing by
`resume_batch`. -/
def recRetry0 : BatchRec :=
  { batchId := "b9", totalHospitals := 1, processedHospitals := 0,
    failedHospitals := 1, processingTimeSeconds := some 30,
    batchActivated := false, hospitals := [entryFailed1],
    status := .processing, startedAt := 0, finishedAt := some 30 }

/-- Retry pass over the failed row of `recRetry0`; the create now succeeds
and activation succeeds. -/
def retryOkOut : BatchRec × List Event × List SendPayload × Bool :=
  (process_batch_retry "b9" [entryFailed1] remoteAllOk (.code 200)
    recRetry0).getD outDefault

/-- Retry pass over the failed row of `recRetry0` where the create succeeds
but the activation PATCH raises: the entry ends `created` (no rewrite). -/
def retryNoActOut : BatchRec × List Event × List SendPayload × Bool :=
  (process_batch_retry "b9" [entryFailed1] remoteAllOk .exn recRetry0).getD outDefault

/-- A successfully created-and-activated stored entry. -/
def entryCreated1 : Entry :=
  { row := 1, hospitalId := some 10, name := some "Alpha",
    status := .createdAndActivated, error := none,
    payload := some { name := "Alpha", address := "Addr1", phone := none } }

/-- A completed batch with nothing left to retry. -/
def recClean : BatchRec :=
  { batchId := "bc", totalHospitals := 1, processedHospitals := 1,
    failedHospitals := 0, processingTimeSeconds := some 1,
    batchActivated := true, hospitals := [entryCreated1],
    status := .completed, startedAt := 0, finishedAt := some 1 }

/-- A completed batch holding one retryable failed row. -/
def recFailedDone : BatchRec :=
  { batchId := "bf", totalHospitals := 1, processedHospitals := 0,
    failedHospitals := 1, processingTimeSeconds := some 30,
    batchActivated := false, hospitals := [entryFailed1],
    status := .completed, startedAt := 0, finishedAt := some 30 }

/-- A row with whitespace padding and a phone column. -/
def rowPhone : RawRow :=
  { name := some " Gamma ", address := some " Addr3 ", phone := some " 123 " }

/-- Twenty-one rows: one more than the default maximum. -/
def rows21 : List RawRow := List.replicate 21 rowAlpha

/-- The entry the first pass records for `rowAlpha` under `remoteBoom`. -/
def entryReqErrBoom : Entry :=
  { row := 1, hospitalId := none, name := some "Alpha",
    status := .requestError "boom", error := none,
    payload := some { name := "Alpha", address := "Addr1", phone := none } }

/-- The merged entry after a successful retry of `entryFailed1` with no
activation: the `created` update merged over the old entry keeps the stale
`error` value. -/
def entryStaleError : Entry :=
  { row := 1, hospitalId := some 10, name := some "A",
    status := .created, error := some (.statusText 500 "err"),
    payload := some { name := "A", address := "Ad", phone := none } }

theorem length_filter_split (p : Entry → Bool) :
    ∀ es : List Entry,
      (es.filter p).length + (es.filter fun e => !(p e)).length = es.length := by
  intro es
  induction es with
  | nil => simp
  | cons e rest ih =>
      by_cases h : p e = true
      · simp [List.filter_cons, h, Nat.succ_add, ih]
      · simp [List.filter_cons, h, Bool.not_eq_true', ih]
        omega

/-- Per-entry facts about what the first pass can record for one row:
the row index is kept, the stored payload is exactly the normalized row
payload, the status is never `created_and_activated`, the `error` key is
present exactly on `create_failed`, and the status is `invalid_row` exactly
when the row fails validation. -/
theorem rowEntry_facts (remote : Nat → CreateOutcome) (idx : Nat) (row : RawRow)
    (e : Entry) (h : rowEntry remote idx row = some e) :
    e.row = idx ∧ e.payload = some (payloadOfRow row) ∧
    e.status ≠ .createdAndActivated ∧
    (e.error.isSome = true ↔ e.status = .createFailed) ∧
    (e.status = .invalidRow ↔ rowIsValid row = false) := by
  unfold rowEntry at h
  by_cases hv : stripOr row.name = "" ∨ stripOr row.address = ""
  · simp only [if_pos hv] at h
    cases h
    refine ⟨rfl, rfl, by simp, by simp, by simp [rowIsValid]; rcases hv with hv | hv <;> simp [hv]⟩
  · simp only [if_neg hv] at h
    have hvv : rowIsValid row = true := by
      push_neg at hv
      simp [rowIsValid, hv.1, hv.2]
    cases hrem : remote idx with
    | netErr msg =>
        rw [hrem] at h
        cases h
        refine ⟨rfl, rfl, by simp, by simp, by simp [hvv]⟩
    | resp code json text =>
        rw [hrem] at h
        by_cases hc : code = 200 ∨ code = 201
        · simp only [if_pos hc] at h
          cases json with
          | none => cases h
          | some j =>
              cases h
              refine ⟨rfl, rfl, by simp, by simp, by simp [hvv]⟩
        · simp only [if_neg hc] at h
          cases h
          refine ⟨rfl, rfl, by simp, by simp, by simp [hvv]⟩

/-- Full characterization of the first-pass loop: when it completes, the
recorded entries are `rowEntries` in row order, appended to the stored list;
one `row_update` broadcast per entry in the same order; one POST per valid
row carrying the normalized payload with the batch id injected; the local
counters grow by the number of `created` / non-`created` entries; and every
record field other than `hospitals` and the two counters is untouched. -/
theorem runRows_char (bid : String) (remote : Nat → CreateOutcome) :
    ∀ (l : List (Nat × RawRow)) (st st' : LoopSt),
    runRows bid remote st l = some st' →
    ∃ es, rowEntries remote l = some es ∧
      st'.record.hospitals = st.record.hospitals ++ es ∧
      st'.events = st.events ++ es.map Event.rowUpdate ∧
      st'.calls = st.calls ++ (l.filter fun ir => rowIsValid ir.2).map
        (fun ir => sendOf (payloadOfRow ir.2) bid) ∧
      st'.processed = st.processed + (es.filter fun e => e.status == .created).length ∧
      st'.failed = st.failed + (es.filter fun e => !(e.status == .created)).length ∧
      st'.record.batchId = st.record.batchId ∧
      st'.record.totalHospitals = st.record.totalHospitals ∧
      st'.record.processingTimeSeconds = st.record.processingTimeSeconds ∧
      st'.record.batchActivated = st.record.batchActivated ∧
      st'.record.status = st.record.status ∧
      st'.record.startedAt = st.record.startedAt ∧
      st'.record.finishedAt = st.record.finishedAt := by
  intro l
  induction l with
  | nil =>
      intro st st' h
      unfold runRows at h
      cases h
      exact ⟨[], by simp [rowEntries]⟩
  | cons ir rest ih =>
      intro st st' h
      unfold runRows at h
      unfold stepRow at h
      cases he : rowEntry remote ir.1 ir.2 with
      | none => rw [he] at h; cases h
      | some e =>
          rw [he] at h
          simp only at h
          obtain ⟨es, hes, h1, h2, h3, h4, h5, h6, h7, h8, h9, h10, h11, h12⟩ := ih _ _ h
          refine ⟨e :: es, ?_, ?_, ?_, ?_, ?_, ?_, ?_, ?_, ?_, ?_, ?_, ?_, ?_⟩
          · simp [rowEntries, he, hes]
          · simp [h1]
          · simp [h2]
          · by_cases hvr : rowIsValid ir.2 = true
            · simp [h3, hvr, List.filter_cons]
            · simp only [Bool.not_eq_true] at hvr
              simp [h3, hvr, List.filter_cons]
          · by_cases hc : e.status = .created
            · simp [h4, hc, List.filter_cons]; omega
            · simp [h4, hc, List.filter_cons]
          · by_cases hc : e.status = .created
            · simp [h5, hc, List.filter_cons]
            · simp [h5, hc, List.filter_cons]; omega
          · simpa using h6
          · simpa using h7
          · simpa using h8
          · simpa using h9
          · simpa using h10
          · simpa using h11
          · simpa using h12

/-- The stored `processed_hospitals` / `failed_hospitals` mirror the local
counters throughout the loop, provided they agree at entry (they do: the
first pass starts from the fresh record, the retry pass initializes its
locals from the stored values). -/
theorem runRows_mirror (bid : String) (remote : Nat → CreateOutcome) :
    ∀ (l : List (Nat × RawRow)) (st st' : LoopSt),
    runRows bid remote st l = some st' →
    st.record.processedHospitals = st.processed →
    st.record.failedHospitals = st.failed →
    st'.record.processedHospitals = st'.processed ∧
    st'.record.failedHospitals = st'.failed := by
  intro l
  induction l with
  | nil =>
      intro st st' h hp hf
      unfold runRows at h
      cases h
      exact ⟨hp, hf⟩
  | cons ir rest ih =>
      intro st st' h hp hf
      unfold runRows at h
      unfold stepRow at h
      cases he : rowEntry remote ir.1 ir.2 with
      | none => rw [he] at h; cases h
      | some e =>
          rw [he] at h
          simp only at h
          by_cases hc : e.status = .created
          · exact ih _ _ h (by simp [hc, hp]) (by simp [hc, hf])
          · exact ih _ _ h (by simp [hc, hp]) (by simp [hc, hf])

/-- Facts about the activation attempt: the `activated` flag can be true
only if the attempt succeeded, the rewrite leaves no `created` entries
behind on success, entry membership by value is preserved when the rewrite
fixes the entry, the rewritten statuses stay within
`{created, created_and_activated}` when they started there, and no new
`completed` broadcast is produced. -/
theorem runActivation_facts (act : ActResult) (rec : BatchRec) (events : List Event) :
    ((runActivation act rec events).1 = true →
        ∀ e ∈ (runActivation act rec events).2.1.hospitals, e.status ≠ .created) ∧
    ((runActivation act rec events).1 = false →
        (runActivation act rec events).2.1 = rec ∧
        (runActivation act rec events).2.2 = events) ∧
    (∀ e ∈ rec.hospitals, e.status ≠ .created →
        e ∈ (runActivation act rec events).2.1.hospitals) ∧
    ((∀ e ∈ rec.hospitals, e.status = .created ∨ e.status = .createdAndActivated) →
        ∀ e ∈ (runActivation act rec events).2.1.hospitals,
          e.status = .created ∨ e.status = .createdAndActivated) ∧
    ((runActivation act rec events).2.2.filter isCompletedEv =
        events.filter isCompletedEv) ∧
    (runActivation act rec events).2.1.processedHospitals = rec.processedHospitals ∧
    (runActivation act rec events).2.1.failedHospitals = rec.failedHospitals ∧
    (runActivation act rec events).2.1.batchId = rec.batchId ∧
    (runActivation act rec events).2.1.totalHospitals = rec.totalHospitals ∧
    (runActivation act rec events).2.1.status = rec.status ∧
    (runActivation act rec events).2.1.startedAt = rec.startedAt ∧
    (runActivation act rec events).2.1.finishedAt = rec.finishedAt ∧
    (runActivation act rec events).2.1.processingTimeSeconds = rec.processingTimeSeconds ∧
    ((runActivation act rec events).1 = true →
        ∀ e ∈ rec.hospitals, e.status = .created →
          { e with status := RowStatus.createdAndActivated } ∈
            (runActivation act rec events).2.1.hospitals) := by
  cases act with
  | exn =>
      refine ⟨by simp [runActivation], by simp [runActivation], ?_, ?_, by simp [runActivation],
        by simp [runActivation], by simp [runActivation], by simp [runActivation],
        by simp [runActivation], by simp [runActivation], by simp [runActivation],
        by simp [runActivation], by simp [runActivation], by simp [runActivation]⟩
      · intro e he _; simpa [runActivation] using he
      · intro h e he; exact h e (by simpa [runActivation] using he)
  | code n =>
      by_cases hc : n = 200 ∨ n = 204
      · refine ⟨?_, ?_, ?_, ?_, ?_, ?_, ?_, ?_, ?_, ?_, ?_, ?_, ?_, ?_⟩
        · intro _ e he
          simp only [runActivation, if_pos hc, List.mem_map] at he
          obtain ⟨a, _, ha⟩ := he
          by_cases hca : a.status = .created
          · rw [if_pos hca] at ha; rw [← ha]; simp
          · rw [if_neg hca] at ha; rw [← ha]; exact hca
        · intro hfalse; simp [runActivation, if_pos hc] at hfalse
        · intro e he hne
          simp only [runActivation, if_pos hc, List.mem_map]
          exact ⟨e, he, by rw [if_neg hne]⟩
        · intro hall e he
          simp only [runActivation, if_pos hc, List.mem_map] at he
          obtain ⟨a, ha, hae⟩ := he
          by_cases hca : a.status = .created
          · rw [if_pos hca] at hae; rw [← hae]; right; rfl
          · rw [if_neg hca] at hae; rw [← hae]; exact hall a ha
        · simp [runActivation, if_pos hc, isCompletedEv, List.filter_append]
        · simp [runActivation, if_pos hc]
        · simp [runActivation, if_pos hc]
        · simp [runActivation, if_pos hc]
        · simp [runActivation, if_pos hc]
        · simp [runActivation, if_pos hc]
        · simp [runActivation, if_pos hc]
        · simp [runActivation, if_pos hc]
        · simp [runActivation, if_pos hc]
        · intro _ e he hec
          simp only [runActivation, if_pos hc, List.mem_map]
          exact ⟨e, he, by rw [if_pos hec]⟩
      · refine ⟨by simp [runActivation, if_neg hc], by simp [runActivation, if_neg hc], ?_, ?_,
          by simp [runActivation, if_neg hc], by simp [runActivation, if_neg hc],
          by simp [runActivation, if_neg hc], by simp [runActivation, if_neg hc],
          by simp [runActivation, if_neg hc], by simp [runActivation, if_neg hc],
          by simp [runActivation, if_neg hc], by simp [runActivation, if_neg hc],
          by simp [runActivation, if_neg hc], by simp [runActivation, if_neg hc]⟩
        · intro e he _; simpa [runActivation, if_neg hc] using he
        · intro h e he; exact h e (by simpa [runActivation, if_neg hc] using he)

/-- Per-update facts for one retried entry: the update keeps the row index,
stores the resubmitted payload, carries `error` exactly on `create_failed`,
and can never be `invalid_row` or `created_and_activated`. -/
theorem rowEntryRetry_facts (remote : Nat → CreateOutcome) (idx : Nat)
    (p : Payload) (nameF : Option String) (u : Entry)
    (h : rowEntryRetry remote idx p nameF = some u) :
    u.row = idx ∧ u.payload = some p ∧
    (u.error.isSome = true ↔ u.status = .createFailed) ∧
    u.status ≠ .invalidRow ∧ u.status ≠ .createdAndActivated := by
  unfold rowEntryRetry at h
  cases hrem : remote idx with
  | netErr msg =>
      rw [hrem] at h
      cases h
      exact ⟨rfl, rfl, by simp, by simp, by simp⟩
  | resp code json text =>
      rw [hrem] at h
      by_cases hc : code = 200 ∨ code = 201
      · simp only [if_pos hc] at h
        cases json with
        | none => cases h
        | some j =>
            cases h
            exact ⟨rfl, rfl, by simp, by simp, by simp⟩
      · simp only [if_neg hc] at h
        cases h
        exact ⟨rfl, rfl, by simp, by simp, by simp⟩

/-- Full characterization of the retry loop: when it completes, the stored
list is the input list with the update dicts merged in sequentially by row
index, one `row_update` broadcast per retried entry in order, one POST per
retried entry resubmitting the retained payload with the batch id injected,
and the counters grow by the number of `created` / non-`created` updates;
all other record fields are untouched. -/
theorem runRetryRows_char (bid : String) (remote : Nat → CreateOutcome) :
    ∀ (l : List Entry) (st st' : LoopSt),
    runRetryRows bid remote st l = some st' →
    ∃ us, retryUpds remote l = some us ∧
      st'.record.hospitals = applyUpds st.record.hospitals us ∧
      st'.events = st.events ++ us.map Event.rowUpdate ∧
      st'.calls = st.calls ++ l.map
        (fun e => sendOf (e.payload.getD { name := "", address := "", phone := none }) bid) ∧
      st'.processed = st.processed + (us.filter fun u => u.status == .created).length ∧
      st'.failed = st.failed + (us.filter fun u => !(u.status == .created)).length ∧
      st'.record.batchId = st.record.batchId ∧
      st'.record.totalHospitals = st.record.totalHospitals ∧
      st'.record.processingTimeSeconds = st.record.processingTimeSeconds ∧
      st'.record.batchActivated = st.record.batchActivated ∧
      st'.record.status = st.record.status ∧
      st'.record.startedAt = st.record.startedAt ∧
      st'.record.finishedAt = st.record.finishedAt := by
  intro l
  induction l with
  | nil =>
      intro st st' h
      unfold runRetryRows at h
      cases h
      exact ⟨[], by simp [retryUpds, applyUpds]⟩
  | cons e rest ih =>
      intro st st' h
      unfold runRetryRows at h
      unfold stepRetry at h
      simp only at h
      cases hu : rowEntryRetry remote e.row
          (e.payload.getD { name := "", address := "", phone := none })
          (e.payload.map fun q => q.name) with
      | none => rw [hu] at h; cases h
      | some u =>
          rw [hu] at h
          simp only at h
          obtain ⟨hrow, -, -, -, -⟩ := rowEntryRetry_facts _ _ _ _ _ hu
          obtain ⟨us, hus, h1, h2, h3, h4, h5, h6, h7, h8, h9, h10, h11, h12⟩ := ih _ _ h
          refine ⟨u :: us, ?_, ?_, ?_, ?_, ?_, ?_, ?_, ?_, ?_, ?_, ?_, ?_, ?_⟩
          · simp [retryUpds, hu, hus]
          · simp only [applyUpds, hrow]
            simpa using h1
          · simp [h2]
          · simp [h3]
          · by_cases hc : u.status = .created
            · simp [h4, hc, List.filter_cons]; omega
            · simp [h4, hc, List.filter_cons]
          · by_cases hc : u.status = .created
            · simp [h5, hc, List.filter_cons]
            · simp [h5, hc, List.filter_cons]; omega
          · simpa using h6
          · simpa using h7
          · simpa using h8
          · simpa using h9
          · simpa using h10
          · simpa using h11
          · simpa using h12

/-- Counter mirror for the retry loop, as for the first pass. -/
theorem runRetryRows_mirror (bid : String) (remote : Nat → CreateOutcome) :
    ∀ (l : List Entry) (st st' : LoopSt),
    runRetryRows bid remote st l = some st' →
    st.record.processedHospitals = st.processed →
    st.record.failedHospitals = st.failed →
    st'.record.processedHospitals = st'.processed ∧
    st'.record.failedHospitals = st'.failed := by
  intro l
  induction l with
  | nil =>
      intro st st' h hp hf
      unfold runRetryRows at h
      cases h
      exact ⟨hp, hf⟩
  | cons e rest ih =>
      intro st st' h hp hf
      unfold runRetryRows at h
      unfold stepRetry at h
      simp only at h
      cases hu : rowEntryRetry remote e.row
          (e.payload.getD { name := "", address := "", phone := none })
          (e.payload.map fun q => q.name) with
      | none => rw [hu] at h; cases h
      | some u =>
          rw [hu] at h
          simp only at h
          by_cases hc : u.status = .created
          · exact ih _ _ h (by simp [hc, hp]) (by simp [hc, hf])
          · exact ih _ _ h (by simp [hc, hp]) (by simp [hc, hf])

theorem finalizeFirst_facts (act : ActResult) (s f : Int) (st : LoopSt) :
    (finalizeFirst act s f st).2.2.2 = (st.failed == 0) ∧
    (finalizeFirst act s f st).2.2.1 = st.calls ∧
    (finalizeFirst act s f st).1.status = .completed ∧
    (finalizeFirst act s f st).1.finishedAt = some f ∧
    (finalizeFirst act s f st).1.processingTimeSeconds = some (f - s) ∧
    (finalizeFirst act s f st).1.startedAt = st.record.startedAt ∧
    (finalizeFirst act s f st).1.batchId = st.record.batchId ∧
    (finalizeFirst act s f st).1.totalHospitals = st.record.totalHospitals ∧
    (finalizeFirst act s f st).1.processedHospitals = st.record.processedHospitals ∧
    (finalizeFirst act s f st).1.failedHospitals = st.record.failedHospitals ∧
    (finalizeFirst act s f st).1.batchActivated =
      (if st.failed == 0 then runActivation act st.record st.events
       else (false, st.record, st.events)).1 ∧
    (finalizeFirst act s f st).1.hospitals =
      (if st.failed == 0 then runActivation act st.record st.events
       else (false, st.record, st.events)).2.1.hospitals ∧
    (finalizeFirst act s f st).2.1 =
      (if st.failed == 0 then runActivation act st.record st.events
       else (false, st.record, st.events)).2.2 ++
        [.completedEv (finalizeFirst act s f st).1] := by
  obtain ⟨-, -, -, -, -, f6, f7, f8, f9, -, f11, f12, f13, -⟩ :=
    runActivation_facts act st.record st.events
  by_cases hb : (st.failed == 0) = true
  · simp only [finalizeFirst, hb, if_true]
    repeat' apply And.intro
    all_goals trivial
  · simp only [finalizeFirst, hb, if_false, Bool.false_eq_true]
    repeat' apply And.intro
    all_goals trivial

theorem finalizeRetry_facts (act : ActResult) (st : LoopSt) :
    (finalizeRetry act st).2.2.2 = (remainingFailures st.record.hospitals == 0) ∧
    (finalizeRetry act st).2.2.1 = st.calls ∧
    (finalizeRetry act st).1.status = .completed ∧
    (finalizeRetry act st).1.finishedAt = st.record.finishedAt ∧
    (finalizeRetry act st).1.processingTimeSeconds = st.record.processingTimeSeconds ∧
    (finalizeRetry act st).1.startedAt = st.record.startedAt ∧
    (finalizeRetry act st).1.batchId = st.record.batchId ∧
    (finalizeRetry act st).1.totalHospitals = st.record.totalHospitals ∧
    (finalizeRetry act st).1.processedHospitals = st.record.processedHospitals ∧
    (finalizeRetry act st).1.failedHospitals = st.record.failedHospitals ∧
    (finalizeRetry act st).1.batchActivated =
      (if remainingFailures st.record.hospitals == 0
       then runActivation act st.record st.events
       else (false, st.record, st.events)).1 ∧
    (finalizeRetry act st).1.hospitals =
      (if remainingFailures st.record.hospitals == 0
       then runActivation act st.record st.events
       else (false, st.record, st.events)).2.1.hospitals ∧
    (finalizeRetry act st).2.1 =
      (if remainingFailures st.record.hospitals == 0
       then runActivation act st.record st.events
       else (false, st.record, st.events)).2.2 ++
        [.completedEv (finalizeRetry act st).1] := by
  obtain ⟨-, -, -, -, -, f6, f7, f8, f9, -, f11, f12, f13, -⟩ :=
    runActivation_facts act st.record st.events
  by_cases hb : (remainingFailures st.record.hospitals == 0) = true
  · simp only [finalizeRetry, hb, if_true]
    repeat' apply And.intro
    all_goals trivial
  · simp only [finalizeRetry, hb, if_false, Bool.false_eq_true]
    repeat' apply And.intro
    all_goals trivial

/-- A row that fails validation is recorded as the `invalid_row` entry of
line 83 — independently of the remote oracle, since no POST is made. -/
theorem rowEntry_invalid (remote : Nat → CreateOutcome) (idx : Nat) (row : RawRow)
    (h : rowIsValid row = false) :
    rowEntry remote idx row = some (invalidEntryFor idx row) := by
  have hv : stripOr row.name = "" ∨ stripOr row.address = "" := by
    by_contra hc
    push_neg at hc
    simp [rowIsValid, hc.1, hc.2] at h
  unfold rowEntry invalidEntryFor
  simp only [if_pos hv]

/-- Membership transfer between an enumerated row list and its recorded
entries, plus length preservation. -/
theorem rowEntries_mem (remote : Nat → CreateOutcome) :
    ∀ (l : List (Nat × RawRow)) (es : List Entry),
    rowEntries remote l = some es →
    es.length = l.length ∧
    (∀ e ∈ es, ∃ ir, ir ∈ l ∧ rowEntry remote ir.1 ir.2 = some e) ∧
    (∀ ir ∈ l, ∃ e ∈ es, rowEntry remote ir.1 ir.2 = some e) := by
  intro l
  induction l with
  | nil =>
      intro es h
      unfold rowEntries at h
      cases h
      exact ⟨rfl, by simp, by simp⟩
  | cons ir rest ih =>
      intro es h
      unfold rowEntries at h
      cases he : rowEntry remote ir.1 ir.2 with
      | none => rw [he] at h; cases h
      | some e =>
          rw [he] at h
          cases hes : rowEntries remote rest with
          | none => rw [hes] at h; cases h
          | some es' =>
              rw [hes] at h
              cases h
              obtain ⟨hlen, hm1, hm2⟩ := ih es' hes
              refine ⟨by simp [hlen], ?_, ?_⟩
              · intro x hx
                rcases List.mem_cons.mp hx with hx | hx
                · exact ⟨ir, List.mem_cons_self _ _, hx ▸ he⟩
                · obtain ⟨jr, hjr, hje⟩ := hm1 x hx
                  exact ⟨jr, List.mem_cons_of_mem _ hjr, hje⟩
              · intro jr hjr
                rcases List.mem_cons.mp hjr with hjr | hjr
                · exact ⟨e, List.mem_cons_self _ _, hjr ▸ he⟩
                · obtain ⟨x, hx, hxe⟩ := hm2 jr hjr
                  exact ⟨x, List.mem_cons_of_mem _ hx, hxe⟩

theorem length_filter_mono (p q : Entry → Bool)
    (hpq : ∀ e, p e = true → q e = true) :
    ∀ l : List Entry, (l.filter p).length ≤ (l.filter q).length := by
  intro l
  induction l with
  | nil => simp
  | cons e rest ih =>
      by_cases hp : p e = true
      · simp [List.filter_cons, hp, hpq e hp]
        omega
      · by_cases hq : q e = true
        · simp [List.filter_cons, hp, hq]
          omega
        · simp [List.filter_cons, hp, hq, ih]

/-- C1 (amended): once a first pass completes, `processedCount +
failedCount = totalCount` — rows with outcome `invalid_row` are counted in
`failedCount`, not excluded — and `failedCount` equals the number of stored
entries that are neither `created` nor `created_and_activated`, so the
invalid-row count is bounded by `failedCount`; a retry pass never decreases
`failedCount` (a successful retry increments `processedCount` without
decrementing `failedCount`, so after a retry the sum can exceed
`totalCount - invalidRowCount`). -/
theorem C1_amended_sum :
    (∀ (bid : String) (rows : List RawRow) (remote : Nat → CreateOutcome)
        (act : ActResult) (s f now : Int)
        (rec : BatchRec) (ev : List Event) (calls : List SendPayload) (ac : Bool),
      process_batch bid rows remote act s f (initialRec bid rows.length now) =
        some (rec, ev, calls, ac) →
      rec.processedHospitals + rec.failedHospitals = rows.length ∧
      rec.totalHospitals = rows.length ∧
      rec.failedHospitals =
        (rec.hospitals.filter fun e =>
          !(e.status == .created || e.status == .createdAndActivated)).length ∧
      invalidRowCount rec.hospitals ≤ rec.failedHospitals) ∧
    (∀ (bid : String) (entries : List Entry) (remote : Nat → CreateOutcome)
        (act : ActResult) (rec0 rec : BatchRec) (ev : List Event)
        (calls : List SendPayload) (ac : Bool),
      process_batch_retry bid entries remote act rec0 = some (rec, ev, calls, ac) →
      rec0.failedHospitals ≤ rec.failedHospitals) := by
  constructor
  · intro bid rows remote act s f now rec ev calls ac h
    unfold process_batch at h
    cases hrun : runRows bid remote
        { processed := 0, failed := 0, record := initialRec bid rows.length now,
          events := [], calls := [] } (List.enumFrom 1 rows) with
    | none => rw [hrun] at h; cases h
    | some st =>
        rw [hrun] at h
        simp only [Option.some.injEq] at h
        obtain ⟨es, hes, hh, hev, hcalls, hproc, hfail, hbid, htot, hpts, hact,
          hstat, hstart, hfin⟩ := runRows_char bid remote _ _ _ hrun
        obtain ⟨hmp, hmf⟩ := runRows_mirror bid remote _ _ _ hrun rfl rfl
        obtain ⟨hlen, hmem1, -⟩ := rowEntries_mem remote _ _ hes
        obtain ⟨g1, g2, g3, g4, g5, g6, g7, g8, g9, g10, g11, g12, g13⟩ :=
          finalizeFirst_facts act s f st
        have h1p : rec.processedHospitals = st.record.processedHospitals :=
          (congrArg (fun x => x.1.processedHospitals) h).symm.trans g9
        have h1f : rec.failedHospitals = st.record.failedHospitals :=
          (congrArg (fun x => x.1.failedHospitals) h).symm.trans g10
        have h1t : rec.totalHospitals = st.record.totalHospitals :=
          (congrArg (fun x => x.1.totalHospitals) h).symm.trans g8
        have h1h : rec.hospitals =
            (if st.failed == 0 then runActivation act st.record st.events
             else (false, st.record, st.events)).2.1.hospitals :=
          (congrArg (fun x => x.1.hospitals) h).symm.trans g12
        have hproc' : st.processed =
            (es.filter fun e => e.status == .created).length := by
          rw [hproc]; simp
        have hfail' : st.failed =
            (es.filter fun e => !(e.status == .created)).length := by
          rw [hfail]; simp
        have hfp : rec.processedHospitals =
            (es.filter fun e => e.status == .created).length := by
          rw [h1p, hmp, hproc']
        have hff : rec.failedHospitals =
            (es.filter fun e => !(e.status == .created)).length := by
          rw [h1f, hmf, hfail']
        have hsum : rec.processedHospitals + rec.failedHospitals = rows.length := by
          have hsplit := length_filter_split (fun e => e.status == .created) es
          have hlen' : es.length = rows.length := by rw [hlen]; simp
          rw [hfp, hff]
          omega
        have hesh : st.record.hospitals = es := by
          rw [hh]; simp [initialRec]
        have hC : rec.failedHospitals =
            (rec.hospitals.filter fun e =>
              !(e.status == .created || e.status == .createdAndActivated)).length := by
          by_cases hb : (st.failed == 0) = true
          · have hz : st.failed = 0 := by simpa using hb
            have hzz : (es.filter fun e => !(e.status == .created)).length = 0 := by
              rw [← hfail', hz]
            have hallc : ∀ e ∈ es, e.status = .created := by
              intro e he
              have := List.filter_eq_nil_iff.mp (List.length_eq_zero.mp hzz) e he
              simpa using this
            have hpre : ∀ e ∈ st.record.hospitals,
                e.status = .created ∨ e.status = .createdAndActivated := by
              rw [hesh]; intro e he; exact Or.inl (hallc e he)
            obtain ⟨-, -, -, a4, -⟩ := runActivation_facts act st.record st.events
            have hpost : ∀ e ∈ rec.hospitals,
                e.status = .created ∨ e.status = .createdAndActivated := by
              rw [h1h, if_pos hb]
              exact a4 hpre
            have hnil : rec.hospitals.filter (fun e =>
                !(e.status == .created || e.status == .createdAndActivated)) = [] := by
              rw [List.filter_eq_nil_iff]
              intro e he
              rcases hpost e he with hc | hc <;> simp [hc]
            rw [hnil, h1f, hmf, hz]
            rfl
          · have hnb : rec.hospitals = es := by
              rw [h1h, if_neg hb]
              exact hesh
            have hcongr : rec.hospitals.filter (fun e =>
                  !(e.status == .created || e.status == .createdAndActivated)) =
                rec.hospitals.filter (fun e => !(e.status == .created)) := by
              apply List.filter_congr
              intro e he
              obtain ⟨ir, -, hire⟩ := hmem1 e (hnb ▸ he)
              obtain ⟨-, -, hnca, -, -⟩ := rowEntry_facts remote ir.1 ir.2 e hire
              have hb2 : (e.status == RowStatus.createdAndActivated) = false :=
                beq_eq_false_iff_ne.mpr hnca
              simp [hb2]
            rw [hcongr, hnb, hff]
        refine ⟨hsum, ?_, hC, ?_⟩
        · rw [h1t, htot]; simp [initialRec]
        · rw [invalidRowCount, hC]
          apply length_filter_mono
          intro e hp
          have hinv : e.status = .invalidRow := by
            exact eq_of_beq hp
          simp [hinv]
  · intro bid entries remote act rec0 rec ev calls ac h
    unfold process_batch_retry at h
    cases hrun : runRetryRows bid remote
        { processed := rec0.processedHospitals, failed := rec0.failedHospitals,
          record := rec0, events := [], calls := [] } entries with
    | none => rw [hrun] at h; cases h
    | some st =>
        rw [hrun] at h
        simp only [Option.some.injEq] at h
        obtain ⟨us, hus, hh, hev, hcalls, hproc, hfail, hbid, htot, hpts, hact,
          hstat, hstart, hfin⟩ := runRetryRows_char bid remote _ _ _ hrun
        obtain ⟨hmp, hmf⟩ := runRetryRows_mirror bid remote _ _ _ hrun rfl rfl
        obtain ⟨g1, g2, g3, g4, g5, g6, g7, g8, g9, g10, g11, g12, g13⟩ :=
          finalizeRetry_facts act st
        have h1f : rec.failedHospitals = st.record.failedHospitals :=
          (congrArg (fun x => x.1.failedHospitals) h).symm.trans g10
        rw [h1f, hmf, hfail]
        simp

/-- C1 (as written, refuted): a first pass over a single invalid row
completes with `processedCount + failedCount = 1` while
`totalCount - invalidRowCount = 0` — the invalid row is counted in
`failed_hospitals` (`batch_service.py` line 82), not excluded from the
counters. -/
theorem C1_counterexample :
    process_batch "b2" [rowNoName] remoteAllOk (.code 200) 0 5
        (initialRec "b2" 1 0) = some firstInvalidOut ∧
    firstInvalidOut.1.status = .completed ∧
    invalidRowCount firstInvalidOut.1.hospitals = 1 ∧
    firstInvalidOut.1.processedHospitals + firstInvalidOut.1.failedHospitals = 1 ∧
    firstInvalidOut.1.totalHospitals - invalidRowCount firstInvalidOut.1.hospitals = 0 ∧
    (1 : Nat) ≠ 0 := by
  exact ⟨rfl, rfl, by decide, by decide, by decide, by decide⟩

/-- C1 witness: the amended theorem applied to a concrete two-row success
run and to a concrete retry over one failed row. -/
theorem C1_witness :
    firstOkOut.1.processedHospitals + firstOkOut.1.failedHospitals = 2 ∧
    recRetry0.failedHospitals ≤ retryOkOut.1.failedHospitals := by
  constructor
  · exact (C1_amended_sum.1 "b1" [rowAlpha, rowBeta] remoteAllOk (.code 200) 0 5 0
      firstOkOut.1 firstOkOut.2.1 firstOkOut.2.2.1 firstOkOut.2.2.2 rfl).1
  · exact C1_amended_sum.2 "b9" [entryFailed1] remoteAllOk (.code 200) recRetry0
      retryOkOut.1 retryOkOut.2.1 retryOkOut.2.2.1 retryOkOut.2.2.2 rfl

/-- C2 (as written, refuted): after a first pass over a single invalid row,
every outcome that is not `invalid_row` has status `created` (vacuously),
yet the activation PATCH is not attempted — the first pass gates activation
on the `failed` counter (line 120), which the invalid row incremented. -/
theorem C2_counterexample :
    process_batch "b2" [rowNoName] remoteAllOk (.code 200) 0 5
        (initialRec "b2" 1 0) = some firstInvalidOut ∧
    ¬((∀ e ∈ firstInvalidOut.1.hospitals,
        e.status ≠ .invalidRow → e.status = .created) ↔
      firstInvalidOut.2.2.2 = true) := by
  refine ⟨rfl, ?_⟩
  intro hiff
  have hx : firstInvalidOut.2.2.2 = true := hiff.mp (by decide)
  exact absurd hx (by decide)

/-- C2 (amended): at the end of a first pass, `activateBatch` is called iff
every outcome in the current list has status `created` (an `invalid_row`
outcome blocks activation too, via the failed counter); at the end of a
retry pass it is called iff every outcome in the entire list has status
`created` or `created_and_activated` (an `invalid_row` outcome still
blocks).  In both passes `activated` can become true only when the call is
made and succeeds, and then no `created` outcome survives: on the first
pass every outcome ends `created_and_activated`; on a retry every
`created` outcome is rewritten. -/
theorem C2_amended_activation :
    (∀ (bid : String) (rows : List RawRow) (remote : Nat → CreateOutcome)
        (act : ActResult) (s f now : Int)
        (rec : BatchRec) (ev : List Event) (calls : List SendPayload) (ac : Bool),
      process_batch bid rows remote act s f (initialRec bid rows.length now) =
        some (rec, ev, calls, ac) →
      (ac = true ↔ ∀ e ∈ rec.hospitals,
        e.status = .created ∨ e.status = .createdAndActivated) ∧
      (rec.batchActivated = true →
        ac = true ∧ ∀ e ∈ rec.hospitals, e.status = .createdAndActivated)) ∧
    (∀ (bid : String) (entries : List Entry) (remote : Nat → CreateOutcome)
        (act : ActResult) (rec0 rec : BatchRec) (ev : List Event)
        (calls : List SendPayload) (ac : Bool),
      process_batch_retry bid entries remote act rec0 = some (rec, ev, calls, ac) →
      (ac = true ↔ ∀ e ∈ rec.hospitals,
        e.status = .created ∨ e.status = .createdAndActivated) ∧
      (rec.batchActivated = true →
        ac = true ∧ ∀ e ∈ rec.hospitals, e.status ≠ .created)) := by
  constructor
  · intro bid rows remote act s f now rec ev calls ac h
    unfold process_batch at h
    cases hrun : runRows bid remote
        { processed := 0, failed := 0, record := initialRec bid rows.length now,
          events := [], calls := [] } (List.enumFrom 1 rows) with
    | none => rw [hrun] at h; cases h
    | some st =>
        rw [hrun] at h
        simp only [Option.some.injEq] at h
        obtain ⟨es, hes, hh, hev, hcalls, hproc, hfail, hbid, htot, hpts, hact,
          hstat, hstart, hfin⟩ := runRows_char bid remote _ _ _ hrun
        obtain ⟨hlen, hmem1, -⟩ := rowEntries_mem remote _ _ hes
        obtain ⟨g1, g2, g3, g4, g5, g6, g7, g8, g9, g10, g11, g12, g13⟩ :=
          finalizeFirst_facts act s f st
        obtain ⟨a1, a2, a3, a4, a5, -⟩ := runActivation_facts act st.record st.events
        have hac : ac = (st.failed == 0) :=
          (congrArg (fun x => x.2.2.2) h).symm.trans g1
        have h1h : rec.hospitals =
            (if st.failed == 0 then runActivation act st.record st.events
             else (false, st.record, st.events)).2.1.hospitals :=
          (congrArg (fun x => x.1.hospitals) h).symm.trans g12
        have h1a : rec.batchActivated =
            (if st.failed == 0 then runActivation act st.record st.events
             else (false, st.record, st.events)).1 :=
          (congrArg (fun x => x.1.batchActivated) h).symm.trans g11
        have hfail' : st.failed =
            (es.filter fun e => !(e.status == .created)).length := by
          rw [hfail]; simp
        have hesh : st.record.hospitals = es := by
          rw [hh]; simp [initialRec]
        have hforward : ac = true → ∀ e ∈ rec.hospitals,
            e.status = .created ∨ e.status = .createdAndActivated := by
          intro hat
          have hb : (st.failed == 0) = true := hac ▸ hat
          have hz : st.failed = 0 := by simpa using hb
          have hzz : (es.filter fun e => !(e.status == .created)).length = 0 := by
            rw [← hfail', hz]
          have hallc : ∀ e ∈ es, e.status = .created := by
            intro e he
            have := List.filter_eq_nil_iff.mp (List.length_eq_zero.mp hzz) e he
            simpa using this
          have hpre : ∀ e ∈ st.record.hospitals,
              e.status = .created ∨ e.status = .createdAndActivated := by
            rw [hesh]; intro e he; exact Or.inl (hallc e he)
          rw [h1h, if_pos hb]
          exact a4 hpre
        refine ⟨⟨hforward, ?_⟩, ?_⟩
        · intro hall
          by_contra hnac
          have hb : (st.failed == 0) = false := by
            cases hx : (st.failed == 0) with
            | true => exact absurd (hac.trans hx) hnac
            | false => rfl
          have hnb : rec.hospitals = es := by
            rw [h1h, hb]
            simpa using hesh
          have hzne : st.failed ≠ 0 := by
            intro hz
            rw [hz] at hb
            simp at hb
          have hpos : 0 < (es.filter fun e => !(e.status == .created)).length := by
            omega
          obtain ⟨e, he⟩ := List.exists_mem_of_length_pos hpos
          obtain ⟨hees, hne⟩ := List.mem_filter.mp he
          have hnec : e.status ≠ .created := by
            intro hx; rw [hx] at hne; simp at hne
          obtain ⟨ir, -, hire⟩ := hmem1 e hees
          obtain ⟨-, -, hnca, -, -⟩ := rowEntry_facts remote ir.1 ir.2 e hire
          rcases hall e (hnb ▸ hees) with hx | hx
          · exact hnec hx
          · exact hnca hx
        · intro hba
          have hb : (st.failed == 0) = true := by
            cases hx : (st.failed == 0) with
            | true => rfl
            | false =>
                rw [h1a, hx] at hba
                simp at hba
          have hat : ac = true := hac.trans hb
          refine ⟨hat, ?_⟩
          have hract : (runActivation act st.record st.events).1 = true := by
            rw [h1a, if_pos hb] at hba
            exact hba
          have hnc : ∀ e ∈ rec.hospitals, e.status ≠ .created := by
            rw [h1h, if_pos hb]
            exact a1 hract
          intro e he
          rcases hforward hat e he with hx | hx
          · exact absurd hx (hnc e he)
          · exact hx
  · intro bid entries remote act rec0 rec ev calls ac h
    unfold process_batch_retry at h
    cases hrun : runRetryRows bid remote
        { processed := rec0.processedHospitals, failed := rec0.failedHospitals,
          record := rec0, events := [], calls := [] } entries with
    | none => rw [hrun] at h; cases h
    | some st =>
        rw [hrun] at h
        simp only [Option.some.injEq] at h
        obtain ⟨g1, g2, g3, g4, g5, g6, g7, g8, g9, g10, g11, g12, g13⟩ :=
          finalizeRetry_facts act st
        obtain ⟨a1, a2, a3, a4, a5, -⟩ := runActivation_facts act st.record st.events
        have hac : ac = (remainingFailures st.record.hospitals == 0) :=
          (congrArg (fun x => x.2.2.2) h).symm.trans g1
        have h1h : rec.hospitals =
            (if remainingFailures st.record.hospitals == 0
             then runActivation act st.record st.events
             else (false, st.record, st.events)).2.1.hospitals :=
          (congrArg (fun x => x.1.hospitals) h).symm.trans g12
        have h1a : rec.batchActivated =
            (if remainingFailures st.record.hospitals == 0
             then runActivation act st.record st.events
             else (false, st.record, st.events)).1 :=
          (congrArg (fun x => x.1.batchActivated) h).symm.trans g11
        have hforward : ac = true → ∀ e ∈ rec.hospitals,
            e.status = .created ∨ e.status = .createdAndActivated := by
          intro hat
          have hb : (remainingFailures st.record.hospitals == 0) = true := hac ▸ hat
          have hz : remainingFailures st.record.hospitals = 0 := by simpa using hb
          have hpre : ∀ e ∈ st.record.hospitals,
              e.status = .created ∨ e.status = .createdAndActivated := by
            intro e he
            have hnil := List.filter_eq_nil_iff.mp
              (List.length_eq_zero.mp hz) e he
            rcases hx : e.status <;> simp [hx] at hnil ⊢
          rw [h1h, if_pos hb]
          exact a4 hpre
        refine ⟨⟨hforward, ?_⟩, ?_⟩
        · intro hall
          by_contra hnac
          have hb : (remainingFailures st.record.hospitals == 0) = false := by
            cases hx : (remainingFailures st.record.hospitals == 0) with
            | true => exact absurd (hac.trans hx) hnac
            | false => rfl
          have hnb : rec.hospitals = st.record.hospitals := by
            rw [h1h, hb]
            simp
          have hzne : remainingFailures st.record.hospitals ≠ 0 := by
            intro hz
            rw [hz] at hb
            simp at hb
          have hpos : 0 < (st.record.hospitals.filter fun e =>
              !(e.status == .created || e.status == .createdAndActivated)).length := by
            have : remainingFailures st.record.hospitals =
                (st.record.hospitals.filter fun e =>
                  !(e.status == .created || e.status == .createdAndActivated)).length := rfl
            omega
          obtain ⟨e, he⟩ := List.exists_mem_of_length_pos hpos
          obtain ⟨hees, hne⟩ := List.mem_filter.mp he
          rcases hall e (hnb ▸ hees) with hx | hx <;> rw [hx] at hne <;> simp at hne
        · intro hba
          have hb : (remainingFailures st.record.hospitals == 0) = true := by
            cases hx : (remainingFailures st.record.hospitals == 0) with
            | true => rfl
            | false =>
                rw [h1a, hx] at hba
                simp at hba
          have hat : ac = true := hac.trans hb
          refine ⟨hat, ?_⟩
          have hract : (runActivation act st.record st.events).1 = true := by
            rw [h1a, if_pos hb] at hba
            exact hba
          rw [h1h, if_pos hb]
          exact a1 hract

/-- C2 witness: the amended iff at a concrete all-success first pass and a
concrete successful retry pass. -/
theorem C2_witness :
    (firstOkOut.2.2.2 = true ↔ ∀ e ∈ firstOkOut.1.hospitals,
      e.status = .created ∨ e.status = .createdAndActivated) ∧
    (retryOkOut.2.2.2 = true ↔ ∀ e ∈ retryOkOut.1.hospitals,
      e.status = .created ∨ e.status = .createdAndActivated) := by
  exact ⟨(C2_amended_activation.1 "b1" [rowAlpha, rowBeta] remoteAllOk (.code 200) 0 5 0
      firstOkOut.1 firstOkOut.2.1 firstOkOut.2.2.1 firstOkOut.2.2.2 rfl).1,
    (C2_amended_activation.2 "b9" [entryFailed1] remoteAllOk (.code 200) recRetry0
      retryOkOut.1 retryOkOut.2.1 retryOkOut.2.2.1 retryOkOut.2.2.2 rfl).1⟩

/-- C3 (confirmed): `resume_batch` fails with NotFound for an unknown
batch id and with AlreadyProcessing when `status=processing`; otherwise it
selects exactly the stored outcomes whose payload is present and whose
status is none of `created`, `created_and_activated`, `invalid_row`;
if that set is empty it returns NothingToRetry with the store unchanged,
else it sets `status=processing`, schedules a retry over exactly that
subset and returns its size. -/
theorem C3_resume_contract (bid : String) (st : Store) :
    (getB st bid = none → resume_batch bid st = .error .notFound) ∧
    (∀ rec, getB st bid = some rec →
      (rec.status = .processing → resume_batch bid st = .error .alreadyProcessing) ∧
      (rec.status ≠ .processing →
        (∀ e, e ∈ rec.hospitals.filter retryEligible ↔
          (e ∈ rec.hospitals ∧ e.payload.isSome = true ∧
           e.status ≠ .created ∧ e.status ≠ .createdAndActivated ∧
           e.status ≠ .invalidRow)) ∧
        (rec.hospitals.filter retryEligible = [] →
          resume_batch bid st = .ok (.nothingToRetry, st, [])) ∧
        (rec.hospitals.filter retryEligible ≠ [] →
          resume_batch bid st =
            .ok (.retryScheduled (rec.hospitals.filter retryEligible).length,
                 setB st bid { rec with status := .processing },
                 rec.hospitals.filter retryEligible)))) := by
  constructor
  · intro hnone
    unfold resume_batch
    rw [hnone]
  · intro rec hsome
    constructor
    · intro hproc
      unfold resume_batch
      rw [hsome]
      simp [hproc]
    · intro hnproc
      refine ⟨?_, ?_, ?_⟩
      · intro e
        rw [List.mem_filter]
        unfold retryEligible
        constructor
        · rintro ⟨hm, hb⟩
          simp only [Bool.and_eq_true, Bool.not_eq_true', Bool.or_eq_false_iff,
            beq_eq_false_iff_ne] at hb
          exact ⟨hm, hb.1, hb.2.1.1, hb.2.1.2, hb.2.2⟩
        · rintro ⟨hm, hp, h1, h2, h3⟩
          refine ⟨hm, ?_⟩
          simp only [Bool.and_eq_true, Bool.not_eq_true', Bool.or_eq_false_iff,
            beq_eq_false_iff_ne]
          exact ⟨hp, ⟨⟨h1, h2⟩, h3⟩⟩
      · intro hnil
        unfold resume_batch
        rw [hsome]
        simp only [if_neg hnproc, hnil]
        simp
      · intro hne
        unfold resume_batch
        rw [hsome]
        simp only [if_neg hnproc]
        rw [if_neg (by simpa [List.isEmpty_iff] using hne)]

/-- C3 witness: the four branches at concrete stores — unknown id,
processing batch, nothing to retry, one schedulable row. -/
theorem C3_witness :
    resume_batch "nope" ([] : Store) = .error .notFound ∧
    resume_batch "b9" [("b9", recRetry0)] = .error .alreadyProcessing ∧
    resume_batch "bc" [("bc", recClean)] =
      .ok (.nothingToRetry, [("bc", recClean)], []) ∧
    resume_batch "bf" [("bf", recFailedDone)] =
      .ok (.retryScheduled 1,
           [("bf", { recFailedDone with status := .processing })], [entryFailed1]) := by
  refine ⟨?_, ?_, ?_, ?_⟩
  · exact (C3_resume_contract "nope" ([] : Store)).1 rfl
  · exact ((C3_resume_contract "b9" [("b9", recRetry0)]).2 recRetry0 rfl).1 rfl
  · exact (((C3_resume_contract "bc" [("bc", recClean)]).2 recClean rfl).2
      (by decide)).2.1 (by decide)
  · exact (((C3_resume_contract "bf" [("bf", recFailedDone)]).2 recFailedDone rfl).2
      (by decide)).2.2 (by decide)

theorem filter_completed_map_rowUpdate (es : List Entry) :
    (es.map Event.rowUpdate).filter isCompletedEv = [] := by
  induction es with
  | nil => rfl
  | cons e rest ih => simp [isCompletedEv, ih]

/-- C4 (as written, refuted).  First pass: `processing_time_seconds` is
computed from the pass's own `time.time()` at line 67, not the stored
`started_at` — starting the task at t=5 on a record stamped 0 and
finishing at t=100 yields 95, not 100.  Retry pass: the finalization at
lines 198-203 touches neither `finished_at` nor
`processing_time_seconds`, which keep their first-pass values. -/
theorem C4_counterexample :
    process_batch "b4" [rowAlpha] remoteAllOk (.code 200) 5 100
        (initialRec "b4" 1 0) = some firstLateOut ∧
    firstLateOut.1.status = .completed ∧
    firstLateOut.1.startedAt = 0 ∧
    firstLateOut.1.finishedAt = some 100 ∧
    firstLateOut.1.processingTimeSeconds = some 95 ∧
    some ((100 : Int) - 0) ≠ some (95 : Int) ∧
    process_batch_retry "b9" [entryFailed1] remoteAllOk (.code 200) recRetry0 =
        some retryOkOut ∧
    retryOkOut.1.status = .completed ∧
    retryOkOut.1.processingTimeSeconds = recRetry0.processingTimeSeconds ∧
    retryOkOut.1.finishedAt = recRetry0.finishedAt := by
  exact ⟨rfl, rfl, rfl, rfl, rfl, by decide, rfl, rfl, rfl, rfl⟩

/-- C4 (amended): a first pass finalizes with `status=completed`,
`finishedAt` set to the pass finish time and `processingTimeSeconds =
finish - start` of the pass's own clock readings, and emits exactly one
`completed` event carrying the full final record; a retry pass sets
`status=completed` and emits exactly one `completed` event carrying the
full record, but leaves `finishedAt` and `processingTimeSeconds` exactly
as they were before the pass. -/
theorem C4_amended_finalize :
    (∀ (bid : String) (rows : List RawRow) (remote : Nat → CreateOutcome)
        (act : ActResult) (s f now : Int)
        (rec : BatchRec) (ev : List Event) (calls : List SendPayload) (ac : Bool),
      process_batch bid rows remote act s f (initialRec bid rows.length now) =
        some (rec, ev, calls, ac) →
      rec.status = .completed ∧
      rec.finishedAt = some f ∧
      rec.processingTimeSeconds = some (f - s) ∧
      ev.filter isCompletedEv = [Event.completedEv rec]) ∧
    (∀ (bid : String) (entries : List Entry) (remote : Nat → CreateOutcome)
        (act : ActResult) (rec0 rec : BatchRec) (ev : List Event)
        (calls : List SendPayload) (ac : Bool),
      process_batch_retry bid entries remote act rec0 = some (rec, ev, calls, ac) →
      rec.status = .completed ∧
      rec.finishedAt = rec0.finishedAt ∧
      rec.processingTimeSeconds = rec0.processingTimeSeconds ∧
      ev.filter isCompletedEv = [Event.completedEv rec]) := by
  constructor
  · intro bid rows remote act s f now rec ev calls ac h
    unfold process_batch at h
    cases hrun : runRows bid remote
        { processed := 0, failed := 0, record := initialRec bid rows.length now,
          events := [], calls := [] } (List.enumFrom 1 rows) with
    | none => rw [hrun] at h; cases h
    | some st =>
        rw [hrun] at h
        simp only [Option.some.injEq] at h
        obtain ⟨es, hes, hh, hev, hcallsx, hproc, hfail, hbid, htot, hpts, hact,
          hstat, hstart, hfin⟩ := runRows_char bid remote _ _ _ hrun
        obtain ⟨g1, g2, g3, g4, g5, g6, g7, g8, g9, g10, g11, g12, g13⟩ :=
          finalizeFirst_facts act s f st
        obtain ⟨-, -, -, -, a5, -⟩ := runActivation_facts act st.record st.events
        have hstatus : rec.status = .completed :=
          (congrArg (fun x => x.1.status) h).symm.trans g3
        have hfinish : rec.finishedAt = some f :=
          (congrArg (fun x => x.1.finishedAt) h).symm.trans g4
        have hptsr : rec.processingTimeSeconds = some (f - s) :=
          (congrArg (fun x => x.1.processingTimeSeconds) h).symm.trans g5
        have hevr : ev =
            (if st.failed == 0 then runActivation act st.record st.events
             else (false, st.record, st.events)).2.2 ++
              [Event.completedEv (finalizeFirst act s f st).1] :=
          (congrArg (fun x => x.2.1) h).symm.trans g13
        have hrec1 : (finalizeFirst act s f st).1 = rec := congrArg (fun x => x.1) h
        have hstev : st.events.filter isCompletedEv = [] := by
          rw [hev]
          simpa using filter_completed_map_rowUpdate es
        refine ⟨hstatus, hfinish, hptsr, ?_⟩
        rw [hevr, hrec1, List.filter_append]
        by_cases hb : (st.failed == 0) = true
        · rw [if_pos hb, a5, hstev]
          rfl
        · rw [if_neg hb]
          rw [hstev]
          rfl
  · intro bid entries remote act rec0 rec ev calls ac h
    unfold process_batch_retry at h
    cases hrun : runRetryRows bid remote
        { processed := rec0.processedHospitals, failed := rec0.failedHospitals,
          record := rec0, events := [], calls := [] } entries with
    | none => rw [hrun] at h; cases h
    | some st =>
        rw [hrun] at h
        simp only [Option.some.injEq] at h
        obtain ⟨us, hus, hh, hev, hcallsx, hproc, hfail, hbid, htot, hpts, hact,
          hstat, hstart, hfin⟩ := runRetryRows_char bid remote _ _ _ hrun
        obtain ⟨g1, g2, g3, g4, g5, g6, g7, g8, g9, g10, g11, g12, g13⟩ :=
          finalizeRetry_facts act st
        obtain ⟨-, -, -, -, a5, -⟩ := runActivation_facts act st.record st.events
        have hstatus : rec.status = .completed :=
          (congrArg (fun x => x.1.status) h).symm.trans g3
        have hfinish : rec.finishedAt = rec0.finishedAt := by
          have hx : rec.finishedAt = st.record.finishedAt :=
            (congrArg (fun x => x.1.finishedAt) h).symm.trans g4
          rw [hx, hfin]
        have hptsr : rec.processingTimeSeconds = rec0.processingTimeSeconds := by
          have hx : rec.processingTimeSeconds = st.record.processingTimeSeconds :=
            (congrArg (fun x => x.1.processingTimeSeconds) h).symm.trans g5
          rw [hx, hpts]
        have hevr : ev =
            (if remainingFailures st.record.hospitals == 0
             then runActivation act st.record st.events
             else (false, st.record, st.events)).2.2 ++
              [Event.completedEv (finalizeRetry act st).1] :=
          (congrArg (fun x => x.2.1) h).symm.trans g13
        have hrec1 : (finalizeRetry act st).1 = rec := congrArg (fun x => x.1) h
        have hstev : st.events.filter isCompletedEv = [] := by
          rw [hev]
          simpa using filter_completed_map_rowUpdate us
        refine ⟨hstatus, hfinish, hptsr, ?_⟩
        rw [hevr, hrec1, List.filter_append]
        by_cases hb : (remainingFailures st.record.hospitals == 0) = true
        · rw [if_pos hb, a5, hstev]
          rfl
        · rw [if_neg hb]
          rw [hstev]
          rfl

/-- C4 witness: the amended finalization facts at a concrete first pass
and a concrete retry pass. -/
theorem C4_witness :
    firstOkOut.1.status = .completed ∧
    firstOkOut.1.finishedAt = some 5 ∧
    firstOkOut.2.1.filter isCompletedEv = [Event.completedEv firstOkOut.1] ∧
    retryOkOut.1.processingTimeSeconds = recRetry0.processingTimeSeconds := by
  obtain ⟨w1, w2, -, w4⟩ := C4_amended_finalize.1 "b1" [rowAlpha, rowBeta]
    remoteAllOk (.code 200) 0 5 0
    firstOkOut.1 firstOkOut.2.1 firstOkOut.2.2.1 firstOkOut.2.2.2 rfl
  obtain ⟨-, -, w7, -⟩ := C4_amended_finalize.2 "b9" [entryFailed1]
    remoteAllOk (.code 200) recRetry0
    retryOkOut.1 retryOkOut.2.1 retryOkOut.2.2.1 retryOkOut.2.2.2 rfl
  exact ⟨w1, w2, w4, w7⟩

/-- The activation rewrite preserves "`error` present exactly on
`create_failed`": it only renames `created` to `created_and_activated` and
never touches `error`. -/
theorem runActivation_error_iff (act : ActResult) (rec : BatchRec)
    (events : List Event)
    (hpre : ∀ e ∈ rec.hospitals, e.error.isSome = true ↔ e.status = .createFailed) :
    ∀ e ∈ (runActivation act rec events).2.1.hospitals,
      e.error.isSome = true ↔ e.status = .createFailed := by
  cases act with
  | exn => simpa [runActivation] using hpre
  | code n =>
      by_cases hc : n = 200 ∨ n = 204
      · intro e he
        simp only [runActivation, if_pos hc, List.mem_map] at he
        obtain ⟨a, ha, hae⟩ := he
        have hiff := hpre a ha
        by_cases hca : a.status = .created
        · rw [if_pos hca] at hae
          rw [← hae]
          simp only
          rw [hca] at hiff
          simpa using hiff
        · rw [if_neg hca] at hae
          rw [← hae]
          exact hiff
      · simpa [runActivation, if_neg hc] using hpre

/-- C5 (as written, refuted): a `request_error` outcome stores no `error`
value — the message lives inside the status string (line 95) — and a
successful retry over a `create_failed` entry merges the update over the
old dict (line 211), leaving a stale `error` on a `created` outcome. -/
theorem C5_counterexample :
    process_batch "b3" [rowAlpha] remoteBoom (.code 200) 0 5
        (initialRec "b3" 1 0) = some firstBoomOut ∧
    (∃ e ∈ firstBoomOut.1.hospitals,
      (∃ m, e.status = .requestError m) ∧ e.error = none) ∧
    process_batch_retry "b9" [entryFailed1] remoteAllOk .exn recRetry0 =
        some retryNoActOut ∧
    (∃ e ∈ retryNoActOut.1.hospitals,
      e.status = .created ∧ e.error.isSome = true) ∧
    ¬(∀ e ∈ firstBoomOut.1.hospitals,
        (e.error.isSome = true ↔
          (e.status = .createFailed ∨ ∃ m, e.status = .requestError m))) := by
  refine ⟨rfl, ?_, rfl, ?_, ?_⟩
  · exact ⟨entryReqErrBoom, by decide, ⟨"boom", rfl⟩, rfl⟩
  · exact ⟨entryStaleError, by decide, rfl, rfl⟩
  · intro hall
    have hmem : entryReqErrBoom ∈ firstBoomOut.1.hospitals := by decide
    have hx := (hall _ hmem).mpr (Or.inr ⟨"boom", rfl⟩)
    simp [entryReqErrBoom] at hx

/-- C5 (amended): for every outcome recorded by a first pass, the `error`
field is present exactly when the status is `create_failed`; in particular
`request_error` outcomes carry no `error` field (the message is embedded
in the status string instead). -/
theorem C5_amended_error :
    ∀ (bid : String) (rows : List RawRow) (remote : Nat → CreateOutcome)
        (act : ActResult) (s f now : Int)
        (rec : BatchRec) (ev : List Event) (calls : List SendPayload) (ac : Bool),
      process_batch bid rows remote act s f (initialRec bid rows.length now) =
        some (rec, ev, calls, ac) →
      ∀ e ∈ rec.hospitals,
        (e.error.isSome = true ↔ e.status = .createFailed) ∧
        ((∃ m, e.status = .requestError m) → e.error = none) := by
  intro bid rows remote act s f now rec ev calls ac h
  unfold process_batch at h
  cases hrun : runRows bid remote
      { processed := 0, failed := 0, record := initialRec bid rows.length now,
        events := [], calls := [] } (List.enumFrom 1 rows) with
  | none => rw [hrun] at h; cases h
  | some st =>
      rw [hrun] at h
      simp only [Option.some.injEq] at h
      obtain ⟨es, hes, hh, hev, hcallsx, hproc, hfail, hbid, htot, hpts, hact,
        hstat, hstart, hfin⟩ := runRows_char bid remote _ _ _ hrun
      obtain ⟨hlen, hmem1, -⟩ := rowEntries_mem remote _ _ hes
      obtain ⟨g1, g2, g3, g4, g5, g6, g7, g8, g9, g10, g11, g12, g13⟩ :=
        finalizeFirst_facts act s f st
      have h1h : rec.hospitals =
          (if st.failed == 0 then runActivation act st.record st.events
           else (false, st.record, st.events)).2.1.hospitals :=
        (congrArg (fun x => x.1.hospitals) h).symm.trans g12
      have hesh : st.record.hospitals = es := by
        rw [hh]; simp [initialRec]
      have hpre : ∀ e ∈ st.record.hospitals,
          e.error.isSome = true ↔ e.status = .createFailed := by
        rw [hesh]
        intro e he
        obtain ⟨ir, -, hire⟩ := hmem1 e he
        exact (rowEntry_facts remote ir.1 ir.2 e hire).2.2.2.1
      have hiff : ∀ e ∈ rec.hospitals,
          e.error.isSome = true ↔ e.status = .createFailed := by
        by_cases hb : (st.failed == 0) = true
        · rw [h1h, if_pos hb]
          exact runActivation_error_iff act st.record st.events hpre
        · rw [h1h, if_neg hb]
          exact hpre
      intro e he
      refine ⟨hiff e he, ?_⟩
      rintro ⟨m, hm⟩
      have hns : e.error.isSome ≠ true := by
        intro hx
        rw [(hiff e he).mp hx] at hm
        cases hm
      cases hx : e.error with
      | none => rfl
      | some v => rw [hx] at hns; simp at hns

/-- C5 witness: the amended iff applied at the concrete `request_error`
entry recorded by a transport-failing first pass. -/
theorem C5_witness :
    (entryReqErrBoom.error.isSome = true ↔
      entryReqErrBoom.status = .createFailed) := by
  exact (C5_amended_error "b3" [rowAlpha] remoteBoom (.code 200) 0 5 0
    firstBoomOut.1 firstBoomOut.2.1 firstBoomOut.2.2.1 firstBoomOut.2.2.2 rfl
    _ (by decide)).1

theorem filterMap_rowUpdate (es : List Entry) :
    (es.map Event.rowUpdate).filterMap evRowData = es := by
  induction es with
  | nil => rfl
  | cons e rest ih => simp [evRowData, ih]

theorem runActivation_events_filterMap (act : ActResult) (rec : BatchRec)
    (events : List Event) :
    ((runActivation act rec events).2.2).filterMap evRowData =
      events.filterMap evRowData := by
  cases act with
  | exn => rfl
  | code n =>
      by_cases hc : n = 200 ∨ n = 204
      · simp [runActivation, if_pos hc, List.filterMap_append, evRowData]
      · simp [runActivation, if_neg hc]

/-- C6 (as written, refuted): the `invalid_row` entry recorded at line 83
stores the full normalized payload (here including the address `"Addr"`),
not just the echoed name. -/
theorem C6_counterexample :
    process_batch "b2" [rowNoName] remoteAllOk (.code 200) 0 5
        (initialRec "b2" 1 0) = some firstInvalidOut ∧
    invalidEntryFor 1 rowNoName ∈ firstInvalidOut.1.hospitals ∧
    (invalidEntryFor 1 rowNoName).status = .invalidRow ∧
    (invalidEntryFor 1 rowNoName).payload =
      some { name := "", address := "Addr", phone := none } ∧
    (invalidEntryFor 1 rowNoName).payload ≠ none := by
  exact ⟨rfl, by decide, by decide, by decide, by decide⟩

/-- C6 (amended): every first-pass row that fails validation is recorded
as the `invalid_row` entry of line 83 — row index, name-or-null, no
hospital id, no error, and the full normalized payload — which is present
among the recorded entries and in the final record; its `row_update` event
is broadcast, the broadcasts carry the recorded entries one-per-row in row
order (`ev.filterMap evRowData = es`, so each write is broadcast before
the next row is processed), a POST is issued exactly for the rows passing
validation (so none for the invalid row), and the invalid rows are counted
into `failed_hospitals`. -/
theorem C6_amended_invalid :
    ∀ (bid : String) (rows : List RawRow) (remote : Nat → CreateOutcome)
        (act : ActResult) (s f now : Int)
        (rec : BatchRec) (ev : List Event) (calls : List SendPayload) (ac : Bool),
      process_batch bid rows remote act s f (initialRec bid rows.length now) =
        some (rec, ev, calls, ac) →
      ∃ es, rowEntries remote (List.enumFrom 1 rows) = some es ∧
        (∀ idx row, (idx, row) ∈ List.enumFrom 1 rows → rowIsValid row = false →
          invalidEntryFor idx row ∈ es ∧
          invalidEntryFor idx row ∈ rec.hospitals ∧
          Event.rowUpdate (invalidEntryFor idx row) ∈ ev) ∧
        ev.filterMap evRowData = es ∧
        calls = ((List.enumFrom 1 rows).filter fun ir => rowIsValid ir.2).map
          (fun ir => sendOf (payloadOfRow ir.2) bid) ∧
        invalidRowCount es ≤ rec.failedHospitals := by
  intro bid rows remote act s f now rec ev calls ac h
  unfold process_batch at h
  cases hrun : runRows bid remote
      { processed := 0, failed := 0, record := initialRec bid rows.length now,
        events := [], calls := [] } (List.enumFrom 1 rows) with
  | none => rw [hrun] at h; cases h
  | some st =>
      rw [hrun] at h
      simp only [Option.some.injEq] at h
      obtain ⟨es, hes, hh, hev, hcallsx, hproc, hfail, hbid, htot, hpts, hact,
        hstat, hstart, hfin⟩ := runRows_char bid remote _ _ _ hrun
      obtain ⟨hmp, hmf⟩ := runRows_mirror bid remote _ _ _ hrun rfl rfl
      obtain ⟨hlen, hmem1, hmem2⟩ := rowEntries_mem remote _ _ hes
      obtain ⟨g1, g2, g3, g4, g5, g6, g7, g8, g9, g10, g11, g12, g13⟩ :=
        finalizeFirst_facts act s f st
      obtain ⟨-, -, a3, -, -⟩ := runActivation_facts act st.record st.events
      have h1h : rec.hospitals =
          (if st.failed == 0 then runActivation act st.record st.events
           else (false, st.record, st.events)).2.1.hospitals :=
        (congrArg (fun x => x.1.hospitals) h).symm.trans g12
      have h1f : rec.failedHospitals = st.record.failedHospitals :=
        (congrArg (fun x => x.1.failedHospitals) h).symm.trans g10
      have hcallsr : calls = st.calls :=
        (congrArg (fun x => x.2.2.1) h).symm.trans g2
      have hevr : ev =
          (if st.failed == 0 then runActivation act st.record st.events
           else (false, st.record, st.events)).2.2 ++
            [Event.completedEv (finalizeFirst act s f st).1] :=
        (congrArg (fun x => x.2.1) h).symm.trans g13
      have hesh : st.record.hospitals = es := by
        rw [hh]; simp [initialRec]
      have hfm : ev.filterMap evRowData = es := by
        rw [hevr, List.filterMap_append]
        have h2 : ([Event.completedEv (finalizeFirst act s f st).1]).filterMap
            evRowData = [] := rfl
        rw [h2, List.append_nil]
        by_cases hb : (st.failed == 0) = true
        · rw [if_pos hb, runActivation_events_filterMap, hev]
          simpa using filterMap_rowUpdate es
        · rw [if_neg hb]
          simp only
          rw [hev]
          simpa using filterMap_rowUpdate es
      refine ⟨es, hes, ?_, hfm, ?_, ?_⟩
      · intro idx row hmem hinval
        have hre : rowEntry remote idx row = some (invalidEntryFor idx row) :=
          rowEntry_invalid remote idx row hinval
        obtain ⟨e, hein, hee⟩ := hmem2 (idx, row) hmem
        have hee' : e = invalidEntryFor idx row := by
          have hx := hee.symm.trans hre
          exact Option.some.inj hx
        rw [hee'] at hein
        refine ⟨hein, ?_, ?_⟩
        · by_cases hb : (st.failed == 0) = true
          · rw [h1h, if_pos hb]
            apply a3
            · rw [hesh]; exact hein
            · simp [invalidEntryFor]
          · rw [h1h, if_neg hb]
            simpa using hesh ▸ hein
        · have : invalidEntryFor idx row ∈ ev.filterMap evRowData := hfm ▸ hein
          obtain ⟨a, ha, hae⟩ := List.mem_filterMap.mp this
          cases a with
          | rowUpdate e0 =>
              have : e0 = invalidEntryFor idx row := by
                simpa [evRowData] using hae
              rw [← this]
              exact ha
          | batchActivatedEv => simp [evRowData] at hae
          | completedEv r => simp [evRowData] at hae
          | currentEv r => simp [evRowData] at hae
      · rw [hcallsr, hcallsx]
        simp
      · have hfailr : rec.failedHospitals =
            (es.filter fun e => !(e.status == .created)).length := by
          rw [h1f, hmf, hfail]; simp
        rw [hfailr, invalidRowCount]
        apply length_filter_mono
        intro e hp
        have : e.status = .invalidRow := eq_of_beq hp
        simp [this]

/-- C6 witness: the amended theorem at a concrete one-invalid-row pass:
its entry is stored, its event broadcast, and no POST at all is made. -/
theorem C6_witness :
    invalidEntryFor 1 rowNoName ∈ firstInvalidOut.1.hospitals ∧
    Event.rowUpdate (invalidEntryFor 1 rowNoName) ∈ firstInvalidOut.2.1 ∧
    firstInvalidOut.2.2.1 = [] := by
  obtain ⟨es, hes, hinv, hfm, hcalls, hle⟩ :=
    C6_amended_invalid "b2" [rowNoName] remoteAllOk (.code 200) 0 5 0
      firstInvalidOut.1 firstInvalidOut.2.1 firstInvalidOut.2.2.1
      firstInvalidOut.2.2.2 rfl
  obtain ⟨-, h2, h3⟩ := hinv 1 rowNoName (by decide) (by decide)
  refine ⟨h2, h3, ?_⟩
  rw [hcalls]
  decide

/-- C7 (confirmed): a row's recorded outcome is `invalid_row` exactly when
its stripped name or stripped address is empty (regardless of the remote);
the phone is optional — the retained payload omits it exactly when the
column is absent or strips to empty, and otherwise stores the stripped
value; name and address are stored stripped. -/
theorem C7_validator :
    ∀ (remote : Nat → CreateOutcome) (idx : Nat) (row : RawRow),
      ((rowEntry remote idx row).map Entry.status = some .invalidRow ↔
        (pyStrip (row.name.getD "") = "" ∨ pyStrip (row.address.getD "") = "")) ∧
      ((payloadOfRow row).phone = none ↔
        (row.phone = none ∨ row.phone.map pyStrip = some "")) ∧
      (∀ p, row.phone = some p → pyStrip p ≠ "" →
        (payloadOfRow row).phone = some (pyStrip p)) ∧
      (payloadOfRow row).name = pyStrip (row.name.getD "") ∧
      (payloadOfRow row).address = pyStrip (row.address.getD "") := by
  intro remote idx row
  refine ⟨?_, ?_, ?_, rfl, rfl⟩
  · by_cases hv : pyStrip (row.name.getD "") = "" ∨ pyStrip (row.address.getD "") = ""
    · unfold rowEntry
      rw [if_pos (by simpa [stripOr] using hv)]
      simpa using hv
    · unfold rowEntry
      rw [if_neg (by simpa [stripOr] using hv)]
      cases remote idx with
      | netErr msg => simpa using hv
      | resp code json text =>
          simp only
          by_cases hc : code = 200 ∨ code = 201
          · simp only [if_pos hc]
            cases json with
            | none => simpa using hv
            | some j => simpa using hv
          · simp only [if_neg hc]
            simpa using hv
  · unfold payloadOfRow
    cases hp : row.phone with
    | none => simp
    | some p =>
        by_cases hs : pyStrip p = ""
        · simp [hs]
        · simp [hs]
  · intro p hp hs
    unfold payloadOfRow
    rw [hp]
    simp [hs]

/-- C7 witness: a padded phone is stored stripped, and a row whose name
strips to empty is recorded `invalid_row`. -/
theorem C7_witness :
    (payloadOfRow rowPhone).phone = some "123" ∧
    (rowEntry remoteAllOk 1 rowNoName).map Entry.status = some .invalidRow := by
  constructor
  · exact ((C7_validator remoteAllOk 1 rowPhone).2.2.1 " 123 " rfl
      (by decide)).trans (by decide)
  · exact ((C7_validator remoteAllOk 1 rowNoName).1).mpr (by decide)

/-- C8 (confirmed): the batch id is injected into the POSTed body at send
time (`sendOf` adds `creation_batch_id` and changes nothing else); the
first pass POSTs exactly one body per valid row, namely the normalized
payload with the batch id injected, and every stored entry retains exactly
a normalized row payload (a `Payload` value, which by construction carries
no `creation_batch_id`); a retry pass POSTs, for every scheduled entry,
exactly the retained payload with the batch id injected. -/
theorem C8_payload :
    (∀ (p : Payload) (b : String),
      (sendOf p b).creation_batch_id = b ∧ (sendOf p b).name = p.name ∧
      (sendOf p b).address = p.address ∧ (sendOf p b).phone = p.phone) ∧
    (∀ (bid : String) (rows : List RawRow) (remote : Nat → CreateOutcome)
        (act : ActResult) (s f now : Int)
        (rec : BatchRec) (ev : List Event) (calls : List SendPayload) (ac : Bool),
      process_batch bid rows remote act s f (initialRec bid rows.length now) =
        some (rec, ev, calls, ac) →
      calls = ((List.enumFrom 1 rows).filter fun ir => rowIsValid ir.2).map
        (fun ir => sendOf (payloadOfRow ir.2) bid) ∧
      (∀ e ∈ rec.hospitals, ∃ row', e.payload = some (payloadOfRow row'))) ∧
    (∀ (bid : String) (entries : List Entry) (remote : Nat → CreateOutcome)
        (act : ActResult) (rec0 rec : BatchRec) (ev : List Event)
        (calls : List SendPayload) (ac : Bool),
      process_batch_retry bid entries remote act rec0 = some (rec, ev, calls, ac) →
      calls = entries.map
        (fun e => sendOf (e.payload.getD { name := "", address := "", phone := none })
          bid)) := by
  refine ⟨fun p b => ⟨rfl, rfl, rfl, rfl⟩, ?_, ?_⟩
  · intro bid rows remote act s f now rec ev calls ac h
    unfold process_batch at h
    cases hrun : runRows bid remote
        { processed := 0, failed := 0, record := initialRec bid rows.length now,
          events := [], calls := [] } (List.enumFrom 1 rows) with
    | none => rw [hrun] at h; cases h
    | some st =>
        rw [hrun] at h
        simp only [Option.some.injEq] at h
        obtain ⟨es, hes, hh, hev, hcallsx, hproc, hfail, hbid, htot, hpts, hact,
          hstat, hstart, hfin⟩ := runRows_char bid remote _ _ _ hrun
        obtain ⟨hlen, hmem1, -⟩ := rowEntries_mem remote _ _ hes
        obtain ⟨g1, g2, g3, g4, g5, g6, g7, g8, g9, g10, g11, g12, g13⟩ :=
          finalizeFirst_facts act s f st
        have hcallsr : calls = st.calls :=
          (congrArg (fun x => x.2.2.1) h).symm.trans g2
        have h1h : rec.hospitals =
            (if st.failed == 0 then runActivation act st.record st.events
             else (false, st.record, st.events)).2.1.hospitals :=
          (congrArg (fun x => x.1.hospitals) h).symm.trans g12
        have hesh : st.record.hospitals = es := by
          rw [hh]; simp [initialRec]
        have hesp : ∀ e ∈ es, ∃ row', e.payload = some (payloadOfRow row') := by
          intro e he
          obtain ⟨ir, -, hire⟩ := hmem1 e he
          exact ⟨ir.2, (rowEntry_facts remote ir.1 ir.2 e hire).2.1⟩
        constructor
        · rw [hcallsr, hcallsx]
          simp
        · intro e he
          rw [h1h] at he
          by_cases hb : (st.failed == 0) = true
          · rw [if_pos hb] at he
            unfold runActivation at he
            cases act with
            | exn =>
                simp only at he
                exact hesp e (hesh ▸ he)
            | code n =>
                simp only at he
                by_cases hc : n = 200 ∨ n = 204
                · rw [if_pos hc] at he
                  simp only [List.mem_map] at he
                  obtain ⟨a, ha, hae⟩ := he
                  obtain ⟨row', hrow'⟩ := hesp a (hesh ▸ ha)
                  refine ⟨row', ?_⟩
                  by_cases hca : a.status = .created
                  · rw [if_pos hca] at hae
                    rw [← hae]
                    exact hrow'
                  · rw [if_neg hca] at hae
                    rw [← hae]
                    exact hrow'
                · rw [if_neg hc] at he
                  exact hesp e (hesh ▸ he)
          · rw [if_neg hb] at he
            exact hesp e (hesh ▸ he)
  · intro bid entries remote act rec0 rec ev calls ac h
    unfold process_batch_retry at h
    cases hrun : runRetryRows bid remote
        { processed := rec0.processedHospitals, failed := rec0.failedHospitals,
          record := rec0, events := [], calls := [] } entries with
    | none => rw [hrun] at h; cases h
    | some st =>
        rw [hrun] at h
        simp only [Option.some.injEq] at h
        obtain ⟨us, hus, hh, hev, hcallsx, hproc, hfail, hbid, htot, hpts, hact,
          hstat, hstart, hfin⟩ := runRetryRows_char bid remote _ _ _ hrun
        obtain ⟨g1, g2, g3, g4, g5, g6, g7, g8, g9, g10, g11, g12, g13⟩ :=
          finalizeRetry_facts act st
        have hcallsr : calls = st.calls :=
          (congrArg (fun x => x.2.2.1) h).symm.trans g2
        rw [hcallsr, hcallsx]
        simp

/-- C8 witness: the exact POST bodies of a concrete first pass and a
concrete retry pass. -/
theorem C8_witness :
    firstOkOut.2.2.1 =
      [sendOf (payloadOfRow rowAlpha) "b1", sendOf (payloadOfRow rowBeta) "b1"] ∧
    retryOkOut.2.2.1 =
      [sendOf { name := "A", address := "Ad", phone := none } "b9"] := by
  obtain ⟨hc, -⟩ := C8_payload.2.1 "b1" [rowAlpha, rowBeta] remoteAllOk
    (.code 200) 0 5 0 firstOkOut.1 firstOkOut.2.1 firstOkOut.2.2.1
    firstOkOut.2.2.2 rfl
  have hr := C8_payload.2.2 "b9" [entryFailed1] remoteAllOk (.code 200) recRetry0
    retryOkOut.1 retryOkOut.2.1 retryOkOut.2.2.1 retryOkOut.2.2.2 rfl
  constructor
  · rw [hc]; decide
  · rw [hr]; decide

/-- C9 (confirmed): when the decoded row list exceeds the configured
maximum, the bulk entry point answers with the row-count-exceeded error
and the store is untouched — no batch record is created under any id, and
the success path (where the fresh batch id is drawn) is never reached; the
configured default maximum is 20. -/
theorem C9_row_limit :
    ∀ (maxHospitals : Nat) (rows : List RawRow) (freshId : String) (now : Int)
      (st : Store),
      rows.length > maxHospitals →
      bulk_create_hospitals maxHospitals rows freshId now st =
        (.error .tooManyRows, st) ∧
      (∀ bid, getB (bulk_create_hospitals maxHospitals rows freshId now st).2 bid =
        getB st bid) ∧
      MAX_HOSPITALS_default = 20 := by
  intro maxHospitals rows freshId now st hgt
  have hne : rows.length ≠ 0 := by omega
  have heq : bulk_create_hospitals maxHospitals rows freshId now st =
      (.error .tooManyRows, st) := by
    unfold bulk_create_hospitals
    rw [if_neg hne, if_pos hgt]
  exact ⟨heq, fun bid => by rw [heq], rfl⟩

/-- C9 witness: 21 rows against the default maximum of 20. -/
theorem C9_witness :
    bulk_create_hospitals MAX_HOSPITALS_default rows21 "fresh" 0 ([] : Store) =
      (.error .tooManyRows, ([] : Store)) := by
  exact (C9_row_limit MAX_HOSPITALS_default rows21 "fresh" 0 ([] : Store)
    (by decide)).1

theorem getSubs_setSubs (bid : String) (qs : List Nat) :
    ∀ subs : Subscribers, getSubs (setSubs subs bid qs) bid = qs := by
  intro subs
  induction subs with
  | nil => simp [setSubs, getSubs]
  | cons kv rest ih =>
      unfold setSubs
      by_cases hk : kv.1 = bid
      · rw [if_pos hk]
        simp [getSubs]
      · rw [if_neg hk]
        unfold getSubs
        rw [if_neg hk]
        exact ih

/-- C10 (confirmed): `subscribe` succeeds for every batch id — including
ids with no batch record — registering exactly one fresh queue under that
id and never signalling NotFound (the registration is independent of the
batch store); the websocket connection sends the initial `current`
snapshot iff a batch record exists. -/
theorem C10_subscribe :
    ∀ (bid : String) (st : Store) (subs : Subscribers) (fresh : Nat),
      (websocket_batch_progress bid st subs fresh).1.1 = fresh ∧
      getSubs (websocket_batch_progress bid st subs fresh).1.2 bid =
        getSubs subs bid ++ [fresh] ∧
      (websocket_batch_progress bid st subs fresh).1 = subscribe bid subs fresh ∧
      ((websocket_batch_progress bid st subs fresh).2.isSome ↔
        (getB st bid).isSome) ∧
      (getB st bid = none →
        (websocket_batch_progress bid st subs fresh).1 =
          subscribe bid subs fresh ∧
        (websocket_batch_progress bid st subs fresh).2 = none) := by
  intro bid st subs fresh
  refine ⟨rfl, ?_, rfl, ?_, ?_⟩
  · exact getSubs_setSubs bid (getSubs subs bid ++ [fresh]) subs
  · unfold websocket_batch_progress get_status
    cases getB st bid <;> simp
  · intro hnone
    unfold websocket_batch_progress get_status
    rw [hnone]
    exact ⟨rfl, rfl⟩

/-- C10 witness: subscribing to an unknown id registers the queue and
sends no snapshot; subscribing to an existing batch sends one. -/
theorem C10_witness :
    (websocket_batch_progress "ghost" ([] : Store) ([] : Subscribers) 7).1 =
      subscribe "ghost" ([] : Subscribers) 7 ∧
    (websocket_batch_progress "ghost" ([] : Store) ([] : Subscribers) 7).2 = none ∧
    getSubs (websocket_batch_progress "ghost" ([] : Store)
      ([] : Subscribers) 7).1.2 "ghost" = [7] ∧
    (websocket_batch_progress "bc" [("bc", recClean)] ([] : Subscribers) 3).2.isSome
      = true := by
  obtain ⟨-, h2, -, -, h5⟩ := C10_subscribe "ghost" ([] : Store) ([] : Subscribers) 7
  obtain ⟨ha, hb⟩ := h5 rfl
  refine ⟨ha, hb, by simpa using h2, ?_⟩
  exact (C10_subscribe "bc" [("bc", recClean)] ([] : Subscribers) 3).2.2.2.1.mpr
    (by decide)
